import Mathlib

/-!
Verification development for the ZombieFinder zombie-ownership correlation
engine: a shallow embedding of `ZombieHandles` (zombie discovery),
`AllHandlesSystemwide` (system reference snapshot) and `ZombieOwners`
(ownership correlation), translated from the C++ sources.

Modelling conventions:
* machine integers (`ULONG`, `ULONG_PTR`, `ULONGLONG`, `HANDLE`, `PVOID`,
  `DWORD`, `FILETIME` viewed as `ULONGLONG`) are `Nat`; where 32-bit wrap
  matters (the `ULONG` buffer-size arithmetic in `AllHandlesSystemwide`)
  the reduction `% 2^32` is written explicitly;
* `std::unordered_map` is an association list built with a replace-or-append
  insert, looked up by key; iteration order over a map is the list order;
* wide strings are lists of code units (`List Nat`);
* kernel interactions (process enumeration, `NtQuerySystemInformation`
  responses, image-path and service lookups) are inputs supplied by an
  environment record, so each operation is a pure function of its inputs.
-/

namespace ZombieFinder

/-! ## Association-list maps (model of std::unordered_map keyed by Nat) -/

/-- Lookup in an association list: first entry with the given key. -/
def alFind {β : Type} (m : List (Nat × β)) (k : Nat) : Option β :=
  match m with
  | [] => none
  | kv :: rest => if kv.1 = k then some kv.2 else alFind rest k

/-- `m[k] = v` on std::unordered_map: replace the value if the key is
present, otherwise add the entry. -/
def alInsert {β : Type} (m : List (Nat × β)) (k : Nat) (v : β) : List (Nat × β) :=
  match m with
  | [] => [(k, v)]
  | kv :: rest => if kv.1 = k then (k, v) :: rest else kv :: alInsert rest k v

/-- `m.erase(k)` on std::unordered_map: remove the entries with the key. -/
def alErase {β : Type} (m : List (Nat × β)) (k : Nat) : List (Nat × β) :=
  m.filter (fun kv => kv.1 ≠ k)

/-! ## Data model (ZombieProcessThreadInfo.h, NtInternal.h) -/

/-- Information collected about a zombie process or thread
(struct `ZombieProcessThreadInfo`). `TID = 0` means the record describes
the process itself; timestamps are `FILETIME` viewed as 64-bit tick counts. -/
structure ZombieProcessThreadInfo where
  PID : Nat
  TID : Nat
  sImagePath : List Nat
  createTime : Nat
  exitTime : Nat
  nThreads : Nat
  ParentPID : Nat
  sParentImagePath : List Nat
deriving DecidableEq

/-- One row of the system-wide handle snapshot
(struct `SYSTEM_HANDLE_TABLE_ENTRY_INFO_EX` in NtInternal.h). -/
structure SYSTEM_HANDLE_TABLE_ENTRY_INFO_EX where
  Object : Nat
  UniqueProcessId : Nat
  HandleValue : Nat
  GrantedAccess : Nat
  CreatorBackTraceIndex : Nat
  ObjectTypeIndex : Nat
  HandleAttributes : Nat
deriving DecidableEq

/-- The snapshot buffer layout (struct `SYSTEM_HANDLE_INFORMATION_EX`):
a count followed by the entry array. -/
structure SYSTEM_HANDLE_INFORMATION_EX where
  NumberOfHandles : Nat
  Handles : List SYSTEM_HANDLE_TABLE_ENTRY_INFO_EX
deriving DecidableEq

/-- Service key and display name (struct `ServiceNames_t` in ServiceLookupByPID.h). -/
structure ServiceNames where
  sServiceName : List Nat
  sDisplayName : List Nat
deriving DecidableEq

/-- Handle value and the zombie process/thread it refers to
(struct `ZombieOwningInfo` in ZombieOwners.h). -/
structure ZombieOwningInfo where
  handleValue : Nat
  zombieInfo : ZombieProcessThreadInfo
deriving DecidableEq

/-- A currently-running process holding handles to zombies
(struct `ZombieOwner_t` in ZombieOwners.h). -/
structure ZombieOwner where
  PID : Nat
  sProcessImagePath : List Nat
  sExeName : List Nat
  pServiceList : Option (List ServiceNames)
  zombieOwningInfo : List ZombieOwningInfo
deriving DecidableEq

/-! ## ZombieHandles (ZombieHandles.h / ZombieHandles.cpp)

The kernel side of `NtGetNextProcess` / `NtGetNextThread` /
`NtQueryInformationProcess` / `GetProcessTimes` is an input: one
`ProcessEnum` per process handed out by the enumeration, carrying the values
the kernel calls would produce for that process. -/

/-- Member state of a `ZombieHandles` object. -/
structure ZombieHandlesState where
  m_ZombieHandleLookup : List (Nat × ZombieProcessThreadInfo)
  m_nZombieProcesses : Nat
  m_nTotalProcesses : Nat
deriving DecidableEq

/-- A thread still resident in a zombie process, as yielded by
`NtGetNextThread`: the fresh handle's value and `GetThreadId`'s answer. -/
structure ThreadEnum where
  hThread : Nat
  tid : Nat
deriving DecidableEq

/-- One process yielded by `NtGetNextProcess`, with the results the kernel
queries would return for it. `exitTime` is the value `GetProcessTimes`
writes (0 when the process has not actually exited). -/
structure ProcessEnum where
  hProcess : Nat
  queryOk : Bool
  isProcessDeleting : Bool
  pid : Nat
  ppid : Nat
  createTime : Nat
  exitTime : Nat
  imageQueryOk : Bool
  imagePath : List Nat
  parentImagePathIfRunning : List Nat
  openProcessOk : Bool
  threads : List ThreadEnum
deriving DecidableEq

/-- Environment of one `AcquireNewHandlesToExistingZombies` run:
whether ntdll and its entry points resolve, the run's start time
(`GetSystemTimeAsFileTime`), the process enumeration, and whether the
enumeration ended with `STATUS_NO_MORE_ENTRIES`. -/
structure DiscoveryEnv where
  ntdllModuleOk : Bool
  ntdllFunctionsOk : Bool
  now : Nat
  processes : List ProcessEnum
  enumTerminatedCleanly : Bool
deriving DecidableEq

/-- `ZombieHandles::ReleaseAcquiredHandles`: close every handle held in the
handle-keyed lookup, then clear it. The second component is the list of
handle values passed to `CloseHandle`. -/
def ReleaseAcquiredHandles (st : ZombieHandlesState) : ZombieHandlesState × List Nat :=
  ({ st with m_ZombieHandleLookup := [] }, st.m_ZombieHandleLookup.map Prod.fst)

/-- Working state while `AcquireNewHandlesToExistingZombies` enumerates
processes: the two lookups being built, the enumeration-error list (an error
records the value of `m_nTotalProcesses` mentioned in its message), and
the counters. -/
structure AcquireAcc where
  m_ZombieHandleLookup : List (Nat × ZombieProcessThreadInfo)
  zombiePidLookup : List (Nat × ZombieProcessThreadInfo)
  processEnumErrors : List Nat
  m_nZombieProcesses : Nat
  m_nTotalProcesses : Nat
deriving DecidableEq

/-- One iteration of the `NtGetNextProcess` loop in
`ZombieHandles::AcquireNewHandlesToExistingZombies` (ZombieHandles.cpp
lines 72-196), translated branch for branch. -/
def acquireStep (now nAgeInSeconds : Nat) (acc : AcquireAcc) (p : ProcessEnum) : AcquireAcc :=
  let nTotal := acc.m_nTotalProcesses + 1
  if p.queryOk = false then
    { acc with
      m_nTotalProcesses := nTotal
      processEnumErrors := acc.processEnumErrors ++ [nTotal] }
  else if p.isProcessDeleting = false then
    { acc with m_nTotalProcesses := nTotal }
  else if p.exitTime = 0 then
    -- IsProcessDeleting set but no exit time: skipped
    { acc with m_nTotalProcesses := nTotal }
  else if nAgeInSeconds = 0 ∨
      (now > p.exitTime ∧ (now - p.exitTime) / 10000000 ≥ nAgeInSeconds) then
    let zombieInfo0 : ZombieProcessThreadInfo :=
      { PID := p.pid
        TID := 0
        sImagePath := if p.imageQueryOk then p.imagePath else []
        createTime := p.createTime
        exitTime := p.exitTime
        nThreads := 0
        ParentPID := p.ppid
        sParentImagePath := p.parentImagePathIfRunning }
    let thr := if p.openProcessOk then p.threads else []
    let zhT := thr.foldl
      (fun m t => alInsert m t.hThread { zombieInfo0 with TID := t.tid })
      acc.m_ZombieHandleLookup
    let zombieInfo := { zombieInfo0 with TID := 0, nThreads := thr.length }
    { m_ZombieHandleLookup := alInsert zhT p.hProcess zombieInfo
      zombiePidLookup := alInsert acc.zombiePidLookup zombieInfo.PID zombieInfo
      processEnumErrors := acc.processEnumErrors
      m_nZombieProcesses := acc.m_nZombieProcesses + 1
      m_nTotalProcesses := nTotal }
  else
    { acc with m_nTotalProcesses := nTotal }

/-- What an `AcquireNewHandlesToExistingZombies` call leaves behind: the
`ZombieHandles` members, the two caller-visible output collections and the
return value. -/
structure DiscoveryResult where
  state : ZombieHandlesState
  zombiePidLookup : List (Nat × ZombieProcessThreadInfo)
  processEnumErrors : List Nat
  ok : Bool
deriving DecidableEq

/-- `ZombieHandles::AcquireNewHandlesToExistingZombies`: clear the outputs,
counters and previously held handles; fail if ntdll or its entry points
cannot be resolved; otherwise walk the process enumeration with
`acquireStep` and report a warning if the terminal status was not
`STATUS_NO_MORE_ENTRIES`. -/
def AcquireNewHandlesToExistingZombies (env : DiscoveryEnv) (nAgeInSeconds : Nat)
    (st : ZombieHandlesState) : DiscoveryResult :=
  let st0 : ZombieHandlesState :=
    (ReleaseAcquiredHandles
      { st with m_nZombieProcesses := 0, m_nTotalProcesses := 0 }).1
  if env.ntdllModuleOk = false then
    { state := st0, zombiePidLookup := [], processEnumErrors := [], ok := false }
  else if env.ntdllFunctionsOk = false then
    { state := st0, zombiePidLookup := [], processEnumErrors := [], ok := false }
  else
    let acc := env.processes.foldl (acquireStep env.now nAgeInSeconds)
      { m_ZombieHandleLookup := st0.m_ZombieHandleLookup
        zombiePidLookup := []
        processEnumErrors := []
        m_nZombieProcesses := 0
        m_nTotalProcesses := 0 }
    { state :=
        { m_ZombieHandleLookup := acc.m_ZombieHandleLookup
          m_nZombieProcesses := acc.m_nZombieProcesses
          m_nTotalProcesses := acc.m_nTotalProcesses }
      zombiePidLookup := acc.zombiePidLookup
      processEnumErrors :=
        if env.enumTerminatedCleanly then acc.processEnumErrors
        else acc.processEnumErrors ++ [acc.m_nTotalProcesses]
      ok := true }

/-! ## AllHandlesSystemwide (AllHandlesSystemwide.h / .cpp) -/

/-- Outcome of one `NtQuerySystemInformation(SystemExtendedHandleInformation, ...)`
call: its status and the value it writes to `returnLength`. -/
inductive QueryStatus
  | success
  | infoLengthMismatch
  | other
deriving DecidableEq

/-- A kernel response: status plus the written `returnLength`. -/
structure QueryResp where
  status : QueryStatus
  returnLength : Nat
deriving DecidableEq

/-- One iteration's environment inside the retry loop: whether
`HeapMem::Alloc` succeeds, and the data query's response. -/
structure SnapshotStep where
  allocOk : Bool
  resp : QueryResp
deriving DecidableEq

/-- Environment of one `AllHandlesSystemwide::Update` run. -/
structure SnapshotEnv where
  ntdllModuleOk : Bool
  ntdllFunctionOk : Bool
  probe : QueryResp
  steps : List SnapshotStep
deriving DecidableEq

/-- How an `AllHandlesSystemwide::Update` run ends. `ok` carries the final
allocation size and the requirement it was computed from; `outOfModel`
marks a run longer than the supplied interaction trace. -/
inductive SnapshotOutcome
  | ok (allocatedSize lastReturnLength : Nat)
  | moduleNotFound
  | functionNotFound
  | probeFailed
  | overflowFailure
  | allocFailure
  | queryFailed (attemptedSize lastReturnLength : Nat)
  | outOfModel
deriving DecidableEq

/-- The retry loop of `AllHandlesSystemwide::Update` (lines 123-165):
`sysInfoLength = returnLength + returnLength/4` in 32-bit `ULONG`
arithmetic, the wrap check `sysInfoLength < returnLength`, allocation, the
data query, and the switch on its status. The second component records each
successful allocation as (allocated size, the `returnLength` it was based
on). -/
def snapshotLoop (returnLength : Nat) (steps : List SnapshotStep) :
    SnapshotOutcome × List (Nat × Nat) :=
  let sysInfoLength := (returnLength + returnLength / 4) % 4294967296
  if sysInfoLength < returnLength then (.overflowFailure, [])
  else
    match steps with
    | [] => (.outOfModel, [])
    | step :: rest =>
      if step.allocOk = false then (.allocFailure, [])
      else
        match step.resp.status with
        | .success => (.ok sysInfoLength returnLength, [(sysInfoLength, returnLength)])
        | .infoLengthMismatch =>
          let r := snapshotLoop step.resp.returnLength rest
          (r.1, (sysInfoLength, returnLength) :: r.2)
        | .other =>
          (.queryFailed sysInfoLength step.resp.returnLength,
           [(sysInfoLength, returnLength)])

/-- `AllHandlesSystemwide::Update`: resolve `NtQuerySystemInformation`,
make the minimal-buffer size probe (which must fail with
`STATUS_INFO_LENGTH_MISMATCH`), then run the retry loop. -/
def AllHandlesSystemwideUpdate (env : SnapshotEnv) : SnapshotOutcome × List (Nat × Nat) :=
  if env.ntdllModuleOk = false then (.moduleNotFound, [])
  else if env.ntdllFunctionOk = false then (.functionNotFound, [])
  else if env.probe.status ≠ .infoLengthMismatch then (.probeFailed, [])
  else snapshotLoop env.probe.returnLength env.steps

/-- Member state of an `AllHandlesSystemwide` object: the one heap buffer,
`none` when no snapshot buffer is held (before the first successful
`Update`, or after `Update` deallocated it). -/
structure AllHandlesSystemwide where
  m_Mem : Option SYSTEM_HANDLE_INFORMATION_EX
deriving DecidableEq

/-- `AllHandlesSystemwide::NumberOfHandles`. -/
def NumberOfHandles (a : AllHandlesSystemwide) : Nat :=
  match a.m_Mem with
  | none => 0
  | some buf => buf.NumberOfHandles

/-- `AllHandlesSystemwide::HandleInfo`: null when no buffer is held or the
index is at least `NumberOfHandles`; otherwise the entry at the index
(`&pHandleCollection->Handles[ix]`). -/
def HandleInfo (a : AllHandlesSystemwide) (ix : Nat) :
    Option SYSTEM_HANDLE_TABLE_ENTRY_INFO_EX :=
  match a.m_Mem with
  | none => none
  | some buf =>
    if ix ≥ buf.NumberOfHandles then none
    else buf.Handles.get? ix

/-! ## ZombieOwners (ZombieOwners.h / ZombieOwners.cpp) -/

/-- `towlower` on a wide code unit (ASCII range, the locale-independent
core of `_wcsicmp`). -/
def towlower (c : Nat) : Nat := if 65 ≤ c ∧ c ≤ 90 then c + 32 else c

/-- `_wcsicmp`: case-insensitive comparison of NUL-terminated wide strings;
the sign of the result is all the comparator uses. -/
def wcsicmp : List Nat → List Nat → Int
  | [], [] => 0
  | [], _ :: _ => -1
  | _ :: _, [] => 1
  | c :: cs, d :: ds =>
    if towlower c < towlower d then -1
    else if towlower d < towlower c then 1
    else wcsicmp cs ds

/-- `ZombieOwnerComparator` (ZombieOwners.cpp lines 21-39): descending by
held-handle count, ties broken by case-insensitive exe name, then by
ascending PID. -/
def ZombieOwnerComparator (pA pB : ZombieOwner) : Bool :=
  if pA.zombieOwningInfo.length = pB.zombieOwningInfo.length then
    let cmpResult := wcsicmp pA.sExeName pB.sExeName
    if cmpResult = 0 then decide (pA.PID < pB.PID)
    else decide (cmpResult < 0)
  else decide (pA.zombieOwningInfo.length > pB.zombieOwningInfo.length)

/-- Insert into a list sorted by `ZombieOwnerComparator`. -/
def sortInsert (x : ZombieOwner) : List ZombieOwner → List ZombieOwner
  | [] => [x]
  | y :: ys => if ZombieOwnerComparator y x then y :: sortInsert x ys else x :: y :: ys

/-- Model of `std::sort(m_ownersSorted.begin(), m_ownersSorted.end(),
&ZombieOwnerComparator)`: a sort of the whole vector with that strict weak
order (`std::sort` guarantees exactly sortedness; the permutation it picks
among equivalent elements is unspecified, an insertion sort realizes the
contract). -/
def sortOwners (l : List ZombieOwner) : List ZombieOwner := l.foldr sortInsert []

/-- Member state of a `ZombieOwners` object. `m_ownersSorted` holds the
values the sorted pointer vector points at. -/
structure ZombieOwnersState where
  m_owners : List (Nat × ZombieOwner)
  m_ownersSorted : List ZombieOwner
  m_unexplained : List ZombieProcessThreadInfo
  m_processEnumErrors : List Nat
  m_nZombieProcessesAndThreads : Nat
  m_nZombieProcesses : Nat
  m_nTotalProcesses : Nat
deriving DecidableEq

/-- A default-constructed `ZombieOwners` object. -/
def zombieOwnersInit : ZombieOwnersState :=
  { m_owners := []
    m_ownersSorted := []
    m_unexplained := []
    m_processEnumErrors := []
    m_nZombieProcessesAndThreads := 0
    m_nZombieProcesses := 0
    m_nTotalProcesses := 0 }

/-- A default-constructed `ZombieHandles` object. -/
def zombieHandlesInit : ZombieHandlesState :=
  { m_ZombieHandleLookup := [], m_nZombieProcesses := 0, m_nTotalProcesses := 0 }

/-- Environment of one `ZombieOwners::Update` run: the discovery
environment, the snapshot (`none` when `AllHandlesSystemwide::Update`
fails; otherwise the entries `HandleInfo` yields for indexes `0` to
`NumberOfHandles - 1`), `GetCurrentProcessId`, and the external helpers
`GetImagePathFromPID`, `GetFileNameFromFilePath` and
`LookupServicesByPID`. -/
structure OwnersEnv where
  discoveryEnv : DiscoveryEnv
  snapshot : Option (List SYSTEM_HANDLE_TABLE_ENTRY_INFO_EX)
  currPID : Nat
  getImagePathFromPID : Nat → List Nat
  getFileNameFromFilePath : List Nat → List Nat
  lookupServicesByPID : Nat → Option (List ServiceNames)

/-- Pass 1 of `Update_Impl` (lines 131-149): map each kernel-object address
of a handle that belongs to the current process and is one of the handles
Discovery acquired, to the corresponding zombie record. -/
def buildAddrLookup (currPID : Nat) (zh : List (Nat × ZombieProcessThreadInfo))
    (handles : List SYSTEM_HANDLE_TABLE_ENTRY_INFO_EX) :
    List (Nat × ZombieProcessThreadInfo) :=
  handles.foldl
    (fun m e =>
      if e.UniqueProcessId = currPID then
        match alFind zh e.HandleValue with
        | some z => alInsert m e.Object z
        | none => m
      else m)
    []

/-- A fresh `ZombieOwner_t` entry for a newly seen holder PID (lines
179-187): image path, exe name and hosted services from the external
helpers. -/
def newZombieOwner (env : OwnersEnv) (pid : Nat) : ZombieOwner :=
  let path := env.getImagePathFromPID pid
  { PID := pid
    sProcessImagePath := path
    sExeName := env.getFileNameFromFilePath path
    pServiceList := env.lookupServicesByPID pid
    zombieOwningInfo := [] }

/-- Lines 174-194 of `Update_Impl`: find-or-create the `m_owners` entry for
the holder PID and append the (handle value, zombie record) pair to its
list. On the association list: append to the value if the key is present,
otherwise add a new entry carrying the singleton list. -/
def attributeToOwner (env : OwnersEnv) (owners : List (Nat × ZombieOwner))
    (pid hv : Nat) (z : ZombieProcessThreadInfo) : List (Nat × ZombieOwner) :=
  match owners with
  | [] => [(pid, { newZombieOwner env pid with
                   zombieOwningInfo := [{ handleValue := hv, zombieInfo := z }] })]
  | (k, o) :: rest =>
    if k = pid then
      (k, { o with zombieOwningInfo :=
              o.zombieOwningInfo ++ [{ handleValue := hv, zombieInfo := z }] }) :: rest
    else (k, o) :: attributeToOwner env rest pid hv z

/-- Working state of pass 2: the owners collection being built and the
pending PID lookup from which attributed zombies are erased. -/
structure Pass2Acc where
  owners : List (Nat × ZombieOwner)
  zombiePidLookup : List (Nat × ZombieProcessThreadInfo)
deriving DecidableEq

/-- One handle entry of pass 2 (lines 153-205): if the entry's object is a
zombie object, attribute it to its owning process unless it belongs to the
current process and is one of the handles Discovery itself opened; an
attribution erases the zombie's PID from the pending lookup. -/
def pass2Step (env : OwnersEnv) (zh addrLookup : List (Nat × ZombieProcessThreadInfo))
    (acc : Pass2Acc) (e : SYSTEM_HANDLE_TABLE_ENTRY_INFO_EX) : Pass2Acc :=
  match alFind addrLookup e.Object with
  | none => acc
  | some z =>
    if e.UniqueProcessId ≠ env.currPID ∨ alFind zh e.HandleValue = none then
      { owners := attributeToOwner env acc.owners e.UniqueProcessId e.HandleValue z
        zombiePidLookup := alErase acc.zombiePidLookup z.PID }
    else acc

/-- Pass 2 over the whole snapshot. -/
def pass2 (env : OwnersEnv) (zh addrLookup : List (Nat × ZombieProcessThreadInfo))
    (handles : List SYSTEM_HANDLE_TABLE_ENTRY_INFO_EX) (acc : Pass2Acc) : Pass2Acc :=
  handles.foldl (pass2Step env zh addrLookup) acc

/-- The (holder PID, pair) attributions pass 2 makes, in snapshot order:
one for each entry whose object address is a zombie object and which is not
a Discovery-owned handle of the current process. -/
def pass2Pairs (env : OwnersEnv) (zh addrLookup : List (Nat × ZombieProcessThreadInfo))
    (handles : List SYSTEM_HANDLE_TABLE_ENTRY_INFO_EX) : List (Nat × ZombieOwningInfo) :=
  handles.filterMap (fun e =>
    match alFind addrLookup e.Object with
    | none => none
    | some z =>
      if e.UniqueProcessId ≠ env.currPID ∨ alFind zh e.HandleValue = none then
        some (e.UniqueProcessId, { handleValue := e.HandleValue, zombieInfo := z })
      else none)

/-- Whether some owner entry of key `pid` holds the pair `oi`. -/
def pairMem (owners : List (Nat × ZombieOwner)) (pid : Nat) (oi : ZombieOwningInfo) : Bool :=
  owners.any (fun kv => kv.1 == pid && kv.2.zombieOwningInfo.contains oi)

/-- Whether some owner holds some pair whose zombie record has PID `p`. -/
def pidAttributed (owners : List (Nat × ZombieOwner)) (p : Nat) : Bool :=
  owners.any (fun kv => kv.2.zombieOwningInfo.any (fun oi => oi.zombieInfo.PID == p))

/-- `ZombieOwners::Update_Impl` (ZombieOwners.cpp lines 91-253). Line 96-98
clears `m_owners`, `m_unexplained` and the counters but not
`m_ownersSorted`; discovery runs on a fresh local `ZombieHandles`; the
counters are set before the snapshot is taken; pass 1, pass 2, the sort of
the (never-cleared) pointer vector and the unexplained residue follow. The
diagnostic dump writes files only and does not change the state. -/
def ZombieOwnersUpdate_Impl (env : OwnersEnv) (nAgeInSeconds : Nat)
    (st : ZombieOwnersState) : ZombieOwnersState × Bool :=
  let st0 := { st with
    m_owners := []
    m_unexplained := []
    m_nZombieProcessesAndThreads := 0
    m_nZombieProcesses := 0
    m_nTotalProcesses := 0 }
  let d := AcquireNewHandlesToExistingZombies env.discoveryEnv nAgeInSeconds zombieHandlesInit
  if d.ok = false then
    ({ st0 with m_processEnumErrors := d.processEnumErrors }, false)
  else
    let st1 := { st0 with
      m_processEnumErrors := d.processEnumErrors
      m_nZombieProcessesAndThreads := d.state.m_ZombieHandleLookup.length
      m_nZombieProcesses := d.state.m_nZombieProcesses
      m_nTotalProcesses := d.state.m_nTotalProcesses }
    match env.snapshot with
    | none => (st1, false)
    | some handles =>
      let zh := d.state.m_ZombieHandleLookup
      let addrLookup := buildAddrLookup env.currPID zh handles
      let fin := pass2 env zh addrLookup handles
        { owners := [], zombiePidLookup := d.zombiePidLookup }
      let sorted := sortOwners (st.m_ownersSorted ++ fin.owners.map Prod.snd)
      ({ st1 with
          m_owners := fin.owners
          m_ownersSorted := sorted
          m_unexplained := fin.zombiePidLookup.map Prod.snd }, true)

/-- The thread-security side of `ZombieOwners::Update` (lines 47-83):
whether the thread ended up impersonating (`ImpersonateSelf` succeeded) and
whether `RevertToSelf` ran before returning. -/
structure UpdateSecurityTrace where
  impersonated : Bool
  reverted : Bool
  succeeded : Bool
deriving DecidableEq

/-- `ZombieOwners::Update`: `ImpersonateSelf`, `EnablePrivilege(SE_DEBUG_NAME)`,
`Update_Impl`, `RevertToSelf` — with early returns exactly where the code
has them. -/
def ZombieOwnersUpdate (impersonateSelfOk enablePrivilegeOk : Bool) (env : OwnersEnv)
    (nAgeInSeconds : Nat) (st : ZombieOwnersState) :
    ZombieOwnersState × UpdateSecurityTrace :=
  if impersonateSelfOk = false then
    (st, { impersonated := false, reverted := false, succeeded := false })
  else if enablePrivilegeOk = false then
    (st, { impersonated := true, reverted := false, succeeded := false })
  else
    let r := ZombieOwnersUpdate_Impl env nAgeInSeconds st
    (r.1, { impersonated := true, reverted := true, succeeded := r.2 })

/-- The PID-keyed zombie lookup a `ZombieOwners::Update` run's discovery
phase produces (empty when discovery fails). -/
def discoveredZombies (env : OwnersEnv) (nAgeInSeconds : Nat) :
    List (Nat × ZombieProcessThreadInfo) :=
  (AcquireNewHandlesToExistingZombies env.discoveryEnv nAgeInSeconds zombieHandlesInit).zombiePidLookup

/-- The handle-keyed zombie lookup of the run's discovery phase. -/
def discoveryHandleLookup (env : OwnersEnv) (nAgeInSeconds : Nat) :
    List (Nat × ZombieProcessThreadInfo) :=
  (AcquireNewHandlesToExistingZombies env.discoveryEnv nAgeInSeconds zombieHandlesInit).state.m_ZombieHandleLookup

/-- The kernel-object address lookup pass 1 builds during the run. -/
def zombieAddrLookup (env : OwnersEnv) (nAgeInSeconds : Nat) :
    List (Nat × ZombieProcessThreadInfo) :=
  match env.snapshot with
  | none => []
  | some handles =>
    buildAddrLookup env.currPID (discoveryHandleLookup env nAgeInSeconds) handles

/-- The snapshot entries of the run (empty when the snapshot failed). -/
def snapshotEntries (env : OwnersEnv) : List SYSTEM_HANDLE_TABLE_ENTRY_INFO_EX :=
  env.snapshot.getD []

/-! ## Concrete evaluation environments -/

/-- A small discovery environment: one zombie process (PID 10, handle 100)
that exited at tick 100000000 against a run start of tick 200000000, with
one remaining thread (handle 101, TID 11). -/
def wDiscoveryEnv : DiscoveryEnv :=
  { ntdllModuleOk := true
    ntdllFunctionsOk := true
    now := 200000000
    processes := [
      { hProcess := 100
        queryOk := true
        isProcessDeleting := true
        pid := 10
        ppid := 4
        createTime := 5
        exitTime := 100000000
        imageQueryOk := true
        imagePath := [65]
        parentImagePathIfRunning := []
        openProcessOk := true
        threads := [{ hThread := 101, tid := 11 }] }]
    enumTerminatedCleanly := true }

/-- The zombie record `wDiscoveryEnv`'s discovery produces for PID 10. -/
def wZombieInfo : ZombieProcessThreadInfo :=
  { PID := 10
    TID := 0
    sImagePath := [65]
    createTime := 5
    exitTime := 100000000
    nThreads := 1
    ParentPID := 4
    sParentImagePath := [] }

/-- A correlation environment over `wDiscoveryEnv`: the snapshot holds the
discovery process's own handle 100 to object 500 and process 42's
independent handle 7 to the same object. -/
def wOwnersEnv : OwnersEnv :=
  { discoveryEnv := wDiscoveryEnv
    snapshot := some [
      { Object := 500, UniqueProcessId := 1, HandleValue := 100, GrantedAccess := 0,
        CreatorBackTraceIndex := 0, ObjectTypeIndex := 7, HandleAttributes := 0 },
      { Object := 500, UniqueProcessId := 42, HandleValue := 7, GrantedAccess := 0,
        CreatorBackTraceIndex := 0, ObjectTypeIndex := 7, HandleAttributes := 0 }]
    currPID := 1
    getImagePathFromPID := fun _ => [66]
    getFileNameFromFilePath := fun l => l
    lookupServicesByPID := fun _ => none }

/-- A correlation environment like `wOwnersEnv` but whose snapshot holds no
handle to the zombie object beyond discovery's own. -/
def wOwnersEnvNoHolder : OwnersEnv :=
  { wOwnersEnv with
    snapshot := some [
      { Object := 500, UniqueProcessId := 1, HandleValue := 100, GrantedAccess := 0,
        CreatorBackTraceIndex := 0, ObjectTypeIndex := 7, HandleAttributes := 0 }] }

/-- A snapshot object holding a one-entry buffer. -/
def wAllHandles : AllHandlesSystemwide :=
  { m_Mem := some
      { NumberOfHandles := 1
        Handles := [
          { Object := 500, UniqueProcessId := 42, HandleValue := 7, GrantedAccess := 0,
            CreatorBackTraceIndex := 0, ObjectTypeIndex := 7, HandleAttributes := 0 }] } }

/-- A snapshot-acquisition environment: the probe reports 1000 bytes, one
retry reports 2000 bytes, then the query succeeds. -/
def wSnapshotEnv : SnapshotEnv :=
  { ntdllModuleOk := true
    ntdllFunctionOk := true
    probe := { status := .infoLengthMismatch, returnLength := 1000 }
    steps := [
      { allocOk := true, resp := { status := .infoLengthMismatch, returnLength := 2000 } },
      { allocOk := true, resp := { status := .success, returnLength := 2000 } }] }

/-! ## Lemmas and theorems -/

theorem alFind_nil {β : Type} (k : Nat) : alFind ([] : List (Nat × β)) k = none := rfl

theorem alFind_insert_self {β : Type} (m : List (Nat × β)) (k : Nat) (v : β) :
    alFind (alInsert m k v) k = some v := by
  induction m with
  | nil => simp [alInsert, alFind]
  | cons kv rest ih =>
    by_cases h : kv.1 = k
    · simp [alInsert, h, alFind]
    · simp [alInsert, h, alFind, ih]

theorem alFind_insert_ne {β : Type} (m : List (Nat × β)) (k k' : Nat) (v : β)
    (h : k' ≠ k) : alFind (alInsert m k v) k' = alFind m k' := by
  have h' : ¬(k = k') := fun hh => h hh.symm
  induction m with
  | nil => simp [alInsert, alFind, h']
  | cons kv rest ih =>
    by_cases hk : kv.1 = k
    · subst hk
      simp [alInsert, alFind, h']
    · by_cases hk' : kv.1 = k'
      · simp [alInsert, hk, alFind, hk', h]
      · simp [alInsert, hk, alFind, hk', ih]

theorem alFind_insert_cases {β : Type} (m : List (Nat × β)) (k k' : Nat) (v v' : β)
    (h : alFind (alInsert m k v) k' = some v') :
    v' = v ∨ alFind m k' = some v' := by
  by_cases hk : k' = k
  · subst hk
    rw [alFind_insert_self] at h
    exact Or.inl (Option.some.inj h).symm
  · rw [alFind_insert_ne m k k' v hk] at h
    exact Or.inr h

theorem alFind_isSome_insert {β : Type} (m : List (Nat × β)) (k k' : Nat) (v : β)
    (h : (alFind m k').isSome) : (alFind (alInsert m k v) k').isSome := by
  by_cases hk : k' = k
  · subst hk; rw [alFind_insert_self]; rfl
  · rw [alFind_insert_ne m k k' v hk]; exact h

theorem mem_alInsert {β : Type} (m : List (Nat × β)) (k : Nat) (v : β) (kv : Nat × β)
    (h : kv ∈ alInsert m k v) : kv = (k, v) ∨ kv ∈ m := by
  induction m with
  | nil => simpa [alInsert] using h
  | cons kv' rest ih =>
    by_cases hk : kv'.1 = k
    · simp only [alInsert, hk, if_pos] at h
      rcases List.mem_cons.mp h with h | h
      · exact Or.inl h
      · exact Or.inr (List.mem_cons_of_mem _ h)
    · simp only [alInsert, hk, if_neg, not_false_iff] at h
      rcases List.mem_cons.mp h with h | h
      · exact Or.inr (h ▸ List.mem_cons_self _ _)
      · rcases ih h with h' | h'
        · exact Or.inl h'
        · exact Or.inr (List.mem_cons_of_mem _ h')

theorem alFind_erase_self {β : Type} (m : List (Nat × β)) (k : Nat) :
    alFind (alErase m k) k = none := by
  induction m with
  | nil => rfl
  | cons kv rest ih =>
    by_cases h : kv.1 = k
    · simpa [alErase, List.filter_cons, h] using ih
    · simpa [alErase, List.filter_cons, h, alFind] using ih

theorem alFind_erase_ne {β : Type} (m : List (Nat × β)) (k k' : Nat) (h : k' ≠ k) :
    alFind (alErase m k) k' = alFind m k' := by
  induction m with
  | nil => rfl
  | cons kv rest ih =>
    have h' : ¬(k = k') := fun hh => h hh.symm
    by_cases hk : kv.1 = k
    · simpa [alErase, List.filter_cons, hk, alFind, h'] using ih
    · by_cases hk' : kv.1 = k'
      · simp [alErase, List.filter_cons, hk, alFind, hk', h]
      · simpa [alErase, List.filter_cons, hk, alFind, hk'] using ih

theorem mem_alErase {β : Type} (m : List (Nat × β)) (k : Nat) (kv : Nat × β)
    (h : kv ∈ alErase m k) : kv ∈ m :=
  List.mem_of_mem_filter h

theorem alFind_mem {β : Type} (m : List (Nat × β)) (k : Nat) (v : β)
    (h : alFind m k = some v) : (k, v) ∈ m := by
  induction m with
  | nil => simp [alFind] at h
  | cons kv rest ih =>
    by_cases hk : kv.1 = k
    · simp only [alFind, hk, if_pos] at h
      have hkv : kv = (k, v) := by
        cases kv with
        | mk a b =>
          cases h
          cases hk
          rfl
      rw [← hkv]
      exact List.mem_cons_self _ _
    · simp only [alFind, hk, if_neg, not_false_iff] at h
      exact List.mem_cons_of_mem _ (ih h)

theorem mem_alFind_isSome {β : Type} (m : List (Nat × β)) (kv : Nat × β)
    (h : kv ∈ m) : (alFind m kv.1).isSome := by
  induction m with
  | nil => simp at h
  | cons kv' rest ih =>
    rcases List.mem_cons.mp h with h | h
    · subst h; simp [alFind]
    · by_cases hk : kv'.1 = kv.1
      · simp [alFind, hk]
      · simpa [alFind, hk] using ih h

/-- Claim C3 (the code violates it): on the exit path where
`ImpersonateSelf` succeeded but the Debug Programs privilege cannot be
enabled, `ZombieOwners::Update` returns without calling `RevertToSelf`,
leaving the calling thread impersonating — the elevated thread security
context is not reverted on that failure path. -/
theorem zombieOwnersUpdate_privilegeFailure_skipsRevert :
    (ZombieOwnersUpdate true false wOwnersEnv 3 zombieOwnersInit).2.impersonated = true ∧
    (ZombieOwnersUpdate true false wOwnersEnv 3 zombieOwnersInit).2.reverted = false :=
  ⟨rfl, rfl⟩

/-- Claim C5 (the code violates it): `Update_Impl` never clears
`m_ownersSorted`, so after a second successful `Update` on the same object
the sorted view holds the entries of both runs (here 2 entries) while the
current owners collection has 1 — entries from the earlier run are left
over, contrary to the claim and to the accessor's own documentation. -/
theorem zombieOwnersSorted_accumulates_across_runs :
    (ZombieOwnersUpdate_Impl wOwnersEnv 3 zombieOwnersInit).2 = true ∧
    (ZombieOwnersUpdate_Impl wOwnersEnv 3
      (ZombieOwnersUpdate_Impl wOwnersEnv 3 zombieOwnersInit).1).2 = true ∧
    (ZombieOwnersUpdate_Impl wOwnersEnv 3
      (ZombieOwnersUpdate_Impl wOwnersEnv 3 zombieOwnersInit).1).1.m_ownersSorted.length = 2 ∧
    (ZombieOwnersUpdate_Impl wOwnersEnv 3
      (ZombieOwnersUpdate_Impl wOwnersEnv 3 zombieOwnersInit).1).1.m_owners.length = 1 :=
  ⟨rfl, rfl, rfl, rfl⟩

/-- Claim C9: `ReleaseAcquiredHandles` closes exactly the handles held in
the handle-keyed lookup and empties it, and a second call closes nothing
further and leaves the state unchanged (idempotence). -/
theorem releaseAcquiredHandles_closesAll_and_idempotent (st : ZombieHandlesState) :
    (ReleaseAcquiredHandles st).2 = st.m_ZombieHandleLookup.map Prod.fst ∧
    (ReleaseAcquiredHandles st).1.m_ZombieHandleLookup = [] ∧
    ReleaseAcquiredHandles (ReleaseAcquiredHandles st).1 = ((ReleaseAcquiredHandles st).1, []) :=
  ⟨rfl, rfl, rfl⟩

/-- Claim C10: with a well-formed snapshot buffer (the kernel-written count
within the entry array), `NumberOfHandles` is 0 whenever no buffer is held,
and `HandleInfo ix` is null exactly when no buffer is held or
`ix ≥ NumberOfHandles`, and a valid entry otherwise. -/
theorem handleInfo_total_and_bounded (a : AllHandlesSystemwide)
    (hwf : ∀ buf, a.m_Mem = some buf → buf.NumberOfHandles ≤ buf.Handles.length) :
    (a.m_Mem = none → NumberOfHandles a = 0) ∧
    (∀ ix, HandleInfo a ix = none ↔ (a.m_Mem = none ∨ NumberOfHandles a ≤ ix)) ∧
    (∀ ix, a.m_Mem ≠ none → ix < NumberOfHandles a → (HandleInfo a ix).isSome) := by
  rcases a with ⟨mem⟩
  cases mem with
  | none => simp [NumberOfHandles, HandleInfo]
  | some buf =>
    have hl := hwf buf rfl
    refine ⟨by simp, ?_, ?_⟩
    · intro ix
      by_cases hix : ix ≥ buf.NumberOfHandles
      · simp [NumberOfHandles, HandleInfo, hix]
      · have hlt : ix < buf.Handles.length := lt_of_lt_of_le (Nat.lt_of_not_le hix) hl
        simp [NumberOfHandles, HandleInfo, hix, List.getElem?_eq_getElem hlt]
    · intro ix _ hix
      simp only [NumberOfHandles] at hix
      have hlt : ix < buf.Handles.length := lt_of_lt_of_le hix hl
      simp [NumberOfHandles, HandleInfo, Nat.not_le.mpr hix, List.getElem?_eq_getElem hlt]

/-- Witness for C10: the accessors evaluated on a concrete one-entry
snapshot object. -/
theorem handleInfo_total_and_bounded_witness :
    HandleInfo wAllHandles 1 = none ∧ (HandleInfo wAllHandles 0).isSome := by
  have h := handleInfo_total_and_bounded wAllHandles
    (by intro buf hb; cases hb; decide)
  exact ⟨(h.2.1 1).mpr (Or.inr (by decide)), h.2.2 0 (by decide) (by decide)⟩

/-- Counterexample to Claim C4 as stated: a run whose discovery finds one
zombie and whose snapshot then fails returns failure, yet
`ZombieProcessCount()` is 1, not 0 — the counts set before the snapshot
survive the failure. -/
theorem updateImplFailure_counts_not_zero :
    (ZombieOwnersUpdate_Impl { wOwnersEnv with snapshot := none } 3 zombieOwnersInit).2 = false ∧
    (ZombieOwnersUpdate_Impl { wOwnersEnv with snapshot := none } 3
      zombieOwnersInit).1.m_nZombieProcesses = 1 :=
  ⟨rfl, rfl⟩

/-- Shape of one enumeration step: either the step leaves both lookups
unchanged, or the process passed the zombie filter (non-zero exit time and
the age test) and both lookups receive the new records. -/
theorem acquireStep_shape (now nAgeInSeconds : Nat) (acc : AcquireAcc) (pe : ProcessEnum) :
    ((acquireStep now nAgeInSeconds acc pe).m_ZombieHandleLookup = acc.m_ZombieHandleLookup ∧
     (acquireStep now nAgeInSeconds acc pe).zombiePidLookup = acc.zombiePidLookup) ∨
    (pe.exitTime ≠ 0 ∧
     (nAgeInSeconds = 0 ∨
       (now > pe.exitTime ∧ (now - pe.exitTime) / 10000000 ≥ nAgeInSeconds)) ∧
     ∃ zi : ZombieProcessThreadInfo, ∃ ts : List ThreadEnum,
       zi.PID = pe.pid ∧ zi.exitTime = pe.exitTime ∧
       (acquireStep now nAgeInSeconds acc pe).m_ZombieHandleLookup =
         alInsert
           (ts.foldl
             (fun m t => alInsert m t.hThread { zi with TID := t.tid, nThreads := 0 })
             acc.m_ZombieHandleLookup)
           pe.hProcess zi ∧
       (acquireStep now nAgeInSeconds acc pe).zombiePidLookup =
         alInsert acc.zombiePidLookup zi.PID zi) := by
  unfold acquireStep
  by_cases hq : pe.queryOk = false
  · simp [hq]
  · by_cases hd : pe.isProcessDeleting = false
    · simp [hq, hd]
    · by_cases he : pe.exitTime = 0
      · simp [hq, hd, he]
      · by_cases hf : nAgeInSeconds = 0 ∨
            (now > pe.exitTime ∧ (now - pe.exitTime) / 10000000 ≥ nAgeInSeconds)
        · right
          refine ⟨he, hf, ?_⟩
          refine ⟨{ PID := pe.pid
                    TID := 0
                    sImagePath := if pe.imageQueryOk then pe.imagePath else []
                    createTime := pe.createTime
                    exitTime := pe.exitTime
                    nThreads := (if pe.openProcessOk then pe.threads else []).length
                    ParentPID := pe.ppid
                    sParentImagePath := pe.parentImagePathIfRunning },
                  if pe.openProcessOk then pe.threads else [], rfl, rfl, ?_, ?_⟩
          · simp [hq, hd, he, hf]
          · simp [hq, hd, he, hf]
        · simp [hq, hd, he, hf]

/-- Along the enumeration fold, a property of the PID-keyed lookup's
entries that every newly inserted record satisfies is preserved. -/
theorem acquireFold_pid_entries (now nAgeInSeconds : Nat)
    (Q : Nat × ZombieProcessThreadInfo → Prop)
    (hQ : ∀ zi : ZombieProcessThreadInfo, zi.exitTime ≠ 0 →
      (nAgeInSeconds = 0 ∨
        (now > zi.exitTime ∧ (now - zi.exitTime) / 10000000 ≥ nAgeInSeconds)) →
      Q (zi.PID, zi)) :
    ∀ (ps : List ProcessEnum) (acc : AcquireAcc),
      (∀ kv ∈ acc.zombiePidLookup, Q kv) →
      ∀ kv ∈ (ps.foldl (acquireStep now nAgeInSeconds) acc).zombiePidLookup, Q kv := by
  intro ps
  induction ps with
  | nil => intro acc hacc; simpa using hacc
  | cons pe rest ih =>
    intro acc hacc
    rw [List.foldl_cons]
    apply ih
    rcases acquireStep_shape now nAgeInSeconds acc pe with hsame | ⟨hne, hage, zi, ts, hpid, het, _, hpl⟩
    · rw [hsame.2]; exact hacc
    · rw [hpl]
      intro kv hkv
      rcases mem_alInsert _ _ _ _ hkv with hkv | hkv
      · subst hkv
        have := hQ zi (het ▸ hne) (het ▸ hage)
        simpa using this
      · exact hacc kv hkv

/-- Claim C6: every zombie process record the discovery run records in the
PID-keyed lookup has a non-zero exit timestamp, and the elapsed time from
the run's start to its exit, in whole seconds, meets the age threshold
unless the threshold is zero. -/
theorem acquire_age_filter (env : DiscoveryEnv) (nAgeInSeconds : Nat)
    (st : ZombieHandlesState) (p : Nat) (z : ZombieProcessThreadInfo)
    (h : alFind (AcquireNewHandlesToExistingZombies env nAgeInSeconds st).zombiePidLookup p
      = some z) :
    z.exitTime ≠ 0 ∧
      (nAgeInSeconds = 0 ∨
        (env.now > z.exitTime ∧ (env.now - z.exitTime) / 10000000 ≥ nAgeInSeconds)) := by
  unfold AcquireNewHandlesToExistingZombies at h
  by_cases hm : env.ntdllModuleOk = false
  · simp [hm, alFind] at h
  · by_cases hf : env.ntdllFunctionsOk = false
    · simp [hm, hf, alFind] at h
    · simp only [hm, hf, if_neg, Bool.false_eq_true, not_false_iff, if_false] at h
      have hmem := alFind_mem _ _ _ h
      have := acquireFold_pid_entries env.now nAgeInSeconds
        (fun kv => kv.2.exitTime ≠ 0 ∧
          (nAgeInSeconds = 0 ∨
            (env.now > kv.2.exitTime ∧
              (env.now - kv.2.exitTime) / 10000000 ≥ nAgeInSeconds)))
        (fun zi h1 h2 => ⟨h1, h2⟩)
        env.processes _ (by intro kv hkv; simp at hkv)
        (p, z) hmem
      exact this

/-- Witness for C6: the age filter evaluated on the concrete discovery
environment (threshold 3 seconds, exit 10 seconds before the run). -/
theorem acquire_age_filter_witness :
    wZombieInfo.exitTime ≠ 0 ∧
      (3 = 0 ∨
        (wDiscoveryEnv.now > wZombieInfo.exitTime ∧
          (wDiscoveryEnv.now - wZombieInfo.exitTime) / 10000000 ≥ 3)) :=
  acquire_age_filter wDiscoveryEnv 3 zombieHandlesInit 10 wZombieInfo (by decide)

/-- Unfolding equation of the retry loop on an empty trace. -/
theorem snapshotLoop_nil (rl : Nat) :
    snapshotLoop rl [] =
      if (rl + rl / 4) % 4294967296 < rl then (SnapshotOutcome.overflowFailure, [])
      else (SnapshotOutcome.outOfModel, []) := rfl

/-- Unfolding equation of the retry loop on a non-empty trace. -/
theorem snapshotLoop_cons (rl : Nat) (s : SnapshotStep) (rest : List SnapshotStep) :
    snapshotLoop rl (s :: rest) =
      if (rl + rl / 4) % 4294967296 < rl then (SnapshotOutcome.overflowFailure, [])
      else if s.allocOk = false then (SnapshotOutcome.allocFailure, [])
      else
        match s.resp.status with
        | QueryStatus.success =>
          (SnapshotOutcome.ok ((rl + rl / 4) % 4294967296) rl,
           [((rl + rl / 4) % 4294967296, rl)])
        | QueryStatus.infoLengthMismatch =>
          ((snapshotLoop s.resp.returnLength rest).1,
           ((rl + rl / 4) % 4294967296, rl) :: (snapshotLoop s.resp.returnLength rest).2)
        | QueryStatus.other =>
          (SnapshotOutcome.queryFailed ((rl + rl / 4) % 4294967296) s.resp.returnLength,
           [((rl + rl / 4) % 4294967296, rl)]) := rfl

/-- Every allocation the retry loop makes is at least the requirement the
kernel most recently reported, and a successful exit's allocation is at
least the last reported requirement. -/
theorem snapshotLoop_allocations (steps : List SnapshotStep) : ∀ rl : Nat,
    (∀ pr ∈ (snapshotLoop rl steps).2, pr.2 ≤ pr.1) ∧
    (∀ sz r, (snapshotLoop rl steps).1 = SnapshotOutcome.ok sz r → r ≤ sz) := by
  induction steps with
  | nil =>
    intro rl
    rw [snapshotLoop_nil]
    by_cases hov : (rl + rl / 4) % 4294967296 < rl
    · simp [hov]
    · simp [hov]
  | cons s rest ih =>
    intro rl
    rw [snapshotLoop_cons]
    by_cases hov : (rl + rl / 4) % 4294967296 < rl
    · simp [hov]
    · have hle : rl ≤ (rl + rl / 4) % 4294967296 := Nat.le_of_not_lt hov
      by_cases ha : s.allocOk = false
      · simp [hov, ha]
      · have hrest := ih s.resp.returnLength
        cases hst : s.resp.status with
        | success =>
          simp only [hov, ha, hst, if_false, Bool.false_eq_true, if_neg, not_false_iff]
          constructor
          · intro pr hpr
            rcases List.mem_singleton.mp hpr with rfl
            exact hle
          · intro sz r hok
            cases hok
            exact hle
        | infoLengthMismatch =>
          simp only [hov, ha, hst, if_false, Bool.false_eq_true, if_neg, not_false_iff]
          constructor
          · intro pr hpr
            rcases List.mem_cons.mp hpr with rfl | hpr
            · exact hle
            · exact hrest.1 pr hpr
          · intro sz r hok
            exact hrest.2 sz r hok
        | other =>
          simp only [hov, ha, hst, if_false, Bool.false_eq_true, if_neg, not_false_iff]
          constructor
          · intro pr hpr
            rcases List.mem_singleton.mp hpr with rfl
            exact hle
          · intro sz r hok
            cases hok

/-- Claim C8: in `AllHandlesSystemwide::Update`, every buffer allocated for
a data query is at least the requirement the kernel most recently reported
(so the final successful allocation is at least the last reported
requirement), and whenever `returnLength + returnLength/4` overflows the
32-bit size, the loop fails with the allocation error before allocating a
wrapped-around buffer. -/
theorem snapshot_allocation_sizing (env : SnapshotEnv) :
    (∀ pr ∈ (AllHandlesSystemwideUpdate env).2, pr.2 ≤ pr.1) ∧
    (∀ sz r, (AllHandlesSystemwideUpdate env).1 = SnapshotOutcome.ok sz r → r ≤ sz) ∧
    (∀ (rl : Nat) (steps : List SnapshotStep), rl < 4294967296 →
      4294967296 ≤ rl + rl / 4 →
      snapshotLoop rl steps = (SnapshotOutcome.overflowFailure, [])) := by
  have hover : ∀ (rl : Nat) (steps : List SnapshotStep), rl < 4294967296 →
      4294967296 ≤ rl + rl / 4 →
      snapshotLoop rl steps = (SnapshotOutcome.overflowFailure, []) := by
    intro rl steps hrl hov
    have hlt : (rl + rl / 4) % 4294967296 < rl := by omega
    cases steps with
    | nil => rw [snapshotLoop_nil]; simp [hlt]
    | cons s rest => rw [snapshotLoop_cons]; simp [hlt]
  refine ⟨?_, ?_, hover⟩ <;>
  · unfold AllHandlesSystemwideUpdate
    by_cases hm : env.ntdllModuleOk = false
    · simp [hm]
    · by_cases hf : env.ntdllFunctionOk = false
      · simp [hm, hf]
      · by_cases hps : env.probe.status ≠ QueryStatus.infoLengthMismatch
        · simp [hm, hf, hps]
        · have := snapshotLoop_allocations env.steps env.probe.returnLength
          simp only [hm, hf, hps, if_neg, if_false, Bool.false_eq_true, not_false_iff,
            not_true, not_not]
          first
          | exact this.1
          | exact this.2

/-- `_wcsicmp` is antisymmetric: swapping the arguments negates the result. -/
theorem wcsicmp_neg : ∀ a b : List Nat, wcsicmp a b = -wcsicmp b a
  | [], [] => by simp [wcsicmp]
  | [], _ :: _ => by simp [wcsicmp]
  | _ :: _, [] => by simp [wcsicmp]
  | c :: cs, d :: ds => by
    by_cases h1 : towlower c < towlower d
    · have h2 : ¬ towlower d < towlower c := by omega
      simp [wcsicmp, h1, h2]
    · by_cases h2 : towlower d < towlower c
      · simp [wcsicmp, h1, h2]
      · simp [wcsicmp, h1, h2, wcsicmp_neg cs ds]

/-- `ZombieOwnerComparator` is asymmetric (it is a strict weak order, as
`std::sort` requires). -/
theorem zombieOwnerComparator_asymm (a b : ZombieOwner)
    (h : ZombieOwnerComparator a b = true) : ZombieOwnerComparator b a = false := by
  unfold ZombieOwnerComparator at h ⊢
  have hneg := wcsicmp_neg a.sExeName b.sExeName
  by_cases hlen : a.zombieOwningInfo.length = b.zombieOwningInfo.length
  · rw [if_pos hlen] at h
    rw [if_pos hlen.symm]
    by_cases hcmp : wcsicmp a.sExeName b.sExeName = 0
    · rw [if_pos hcmp] at h
      have hpid : a.PID < b.PID := of_decide_eq_true h
      have hba : wcsicmp b.sExeName a.sExeName = 0 := by omega
      rw [if_pos hba]
      simp
      omega
    · rw [if_neg hcmp] at h
      have hlt : wcsicmp a.sExeName b.sExeName < 0 := of_decide_eq_true h
      have hba0 : ¬ wcsicmp b.sExeName a.sExeName = 0 := by omega
      rw [if_neg hba0]
      simp
      omega
  · rw [if_neg hlen] at h
    have hgt : a.zombieOwningInfo.length > b.zombieOwningInfo.length := of_decide_eq_true h
    have hlen' : ¬ b.zombieOwningInfo.length = a.zombieOwningInfo.length := by omega
    rw [if_neg hlen']
    simp
    omega

/-- The head of an insertion is the inserted element or the old head. -/
theorem sortInsert_head (x : ZombieOwner) (l : List ZombieOwner) :
    (sortInsert x l).head? = some x ∨ (sortInsert x l).head? = l.head? := by
  cases l with
  | nil => left; simp [sortInsert]
  | cons y ys =>
    by_cases hc : ZombieOwnerComparator y x = true
    · right; simp [sortInsert, hc]
    · left; simp [sortInsert, hc]

/-- Inserting preserves sortedness with respect to the comparator. -/
theorem chain_sortInsert (x : ZombieOwner) (l : List ZombieOwner)
    (hl : List.Chain' (fun a b => ZombieOwnerComparator b a = false) l) :
    List.Chain' (fun a b => ZombieOwnerComparator b a = false) (sortInsert x l) := by
  induction l with
  | nil => simp [sortInsert]
  | cons y ys ih =>
    rcases List.chain'_cons'.mp hl with ⟨hy, hys⟩
    by_cases hc : ZombieOwnerComparator y x = true
    · rw [sortInsert, if_pos hc]
      refine List.chain'_cons'.mpr ⟨?_, ih hys⟩
      intro b hb
      rcases sortInsert_head x ys with hh | hh
      · rw [hh] at hb
        cases hb
        exact zombieOwnerComparator_asymm y x hc
      · rw [hh] at hb
        exact hy b hb
    · rw [sortInsert, if_neg hc]
      refine List.chain'_cons'.mpr ⟨?_, hl⟩
      intro b hb
      cases hb
      exact Bool.not_eq_true _ ▸ eq_false_of_ne_true hc

/-- The sorted view is sorted with respect to the comparator. -/
theorem chain_sortOwners (l : List ZombieOwner) :
    List.Chain' (fun a b => ZombieOwnerComparator b a = false) (sortOwners l) := by
  induction l with
  | nil => simp [sortOwners]
  | cons x xs ih => exact chain_sortInsert x (sortOwners xs) ih

/-- A false comparator verdict in the reverse direction yields exactly the
adjacent-pair disjunction of the claim. -/
theorem comparator_false_rel (a b : ZombieOwner)
    (h : ZombieOwnerComparator b a = false) :
    a.zombieOwningInfo.length > b.zombieOwningInfo.length ∨
    (a.zombieOwningInfo.length = b.zombieOwningInfo.length ∧
      wcsicmp a.sExeName b.sExeName ≤ 0) ∨
    (wcsicmp a.sExeName b.sExeName = 0 ∧ a.PID ≤ b.PID) := by
  unfold ZombieOwnerComparator at h
  have hneg := wcsicmp_neg a.sExeName b.sExeName
  by_cases hlen : b.zombieOwningInfo.length = a.zombieOwningInfo.length
  · rw [if_pos hlen] at h
    by_cases hcmp : wcsicmp b.sExeName a.sExeName = 0
    · rw [if_pos hcmp] at h
      have hpid : ¬(b.PID < a.PID) := of_decide_eq_false h
      right; right
      constructor
      · omega
      · omega
    · rw [if_neg hcmp] at h
      have hnlt : ¬(wcsicmp b.sExeName a.sExeName < 0) := of_decide_eq_false h
      right; left
      exact ⟨hlen.symm, by omega⟩
  · rw [if_neg hlen] at h
    have hngt : ¬(b.zombieOwningInfo.length > a.zombieOwningInfo.length) :=
      of_decide_eq_false h
    left
    omega

/-- Claim C7: in the sorted owners view a successful `Update` produces,
every adjacent pair (A before B) has a strictly larger held-count for A, or
equal counts and A's exe name at most B's case-insensitively, or equal
names and A's PID at most B's. -/
theorem sorted_owners_adjacent_pairs (env : OwnersEnv) (nAgeInSeconds : Nat)
    (st₀ st : ZombieOwnersState)
    (h : ZombieOwnersUpdate_Impl env nAgeInSeconds st₀ = (st, true)) :
    List.Chain' (fun A B =>
      A.zombieOwningInfo.length > B.zombieOwningInfo.length ∨
      (A.zombieOwningInfo.length = B.zombieOwningInfo.length ∧
        wcsicmp A.sExeName B.sExeName ≤ 0) ∨
      (wcsicmp A.sExeName B.sExeName = 0 ∧ A.PID ≤ B.PID)) st.m_ownersSorted := by
  simp only [ZombieOwnersUpdate_Impl] at h
  by_cases hok : (AcquireNewHandlesToExistingZombies env.discoveryEnv nAgeInSeconds
      zombieHandlesInit).ok = false
  · rw [if_pos hok] at h
    exact absurd (congrArg Prod.snd h) (by simp)
  · rw [if_neg hok] at h
    cases hsnap : env.snapshot with
    | none =>
      rw [hsnap] at h
      exact absurd (congrArg Prod.snd h) (by simp)
    | some handles =>
      rw [hsnap] at h
      have hst : st.m_ownersSorted = sortOwners (st₀.m_ownersSorted ++
          (pass2 env (AcquireNewHandlesToExistingZombies env.discoveryEnv nAgeInSeconds
              zombieHandlesInit).state.m_ZombieHandleLookup
            (buildAddrLookup env.currPID
              (AcquireNewHandlesToExistingZombies env.discoveryEnv nAgeInSeconds
                zombieHandlesInit).state.m_ZombieHandleLookup handles)
            handles
            { owners := []
              zombiePidLookup := (AcquireNewHandlesToExistingZombies env.discoveryEnv
                nAgeInSeconds zombieHandlesInit).zombiePidLookup }).owners.map Prod.snd) := by
        have h1 := congrArg Prod.fst h
        simp only at h1
        rw [← h1]
      rw [hst]
      exact (chain_sortOwners _).imp (fun a b hab => comparator_false_rel a b hab)

/-- Witness for C7: the adjacent-pair property on the sorted view of a
concrete successful run. -/
theorem sorted_owners_adjacent_pairs_witness :
    List.Chain' (fun A B =>
      A.zombieOwningInfo.length > B.zombieOwningInfo.length ∨
      (A.zombieOwningInfo.length = B.zombieOwningInfo.length ∧
        wcsicmp A.sExeName B.sExeName ≤ 0) ∨
      (wcsicmp A.sExeName B.sExeName = 0 ∧ A.PID ≤ B.PID))
      (ZombieOwnersUpdate_Impl wOwnersEnv 3 zombieOwnersInit).1.m_ownersSorted :=
  sorted_owners_adjacent_pairs wOwnersEnv 3 zombieOwnersInit
    (ZombieOwnersUpdate_Impl wOwnersEnv 3 zombieOwnersInit).1 rfl

/-- Claim C4 as amended: on any failed `Update_Impl`, `OwnersCollection()`
and `UnexplainedZombies()` are empty and `OwnersCollectionSorted()` is
unchanged from before the call; the three counts are zero when discovery
itself failed, but on the path where the snapshot fails after a successful
discovery they retain discovery's values rather than being zero. -/
theorem updateImpl_failure_state (env : OwnersEnv) (nAgeInSeconds : Nat)
    (st₀ st : ZombieOwnersState)
    (h : ZombieOwnersUpdate_Impl env nAgeInSeconds st₀ = (st, false)) :
    st.m_owners = [] ∧ st.m_unexplained = [] ∧
    st.m_ownersSorted = st₀.m_ownersSorted ∧
    ((AcquireNewHandlesToExistingZombies env.discoveryEnv nAgeInSeconds
        zombieHandlesInit).ok = false →
      st.m_nZombieProcessesAndThreads = 0 ∧ st.m_nZombieProcesses = 0 ∧
      st.m_nTotalProcesses = 0) ∧
    ((AcquireNewHandlesToExistingZombies env.discoveryEnv nAgeInSeconds
        zombieHandlesInit).ok = true →
      st.m_nZombieProcessesAndThreads =
        (AcquireNewHandlesToExistingZombies env.discoveryEnv nAgeInSeconds
          zombieHandlesInit).state.m_ZombieHandleLookup.length ∧
      st.m_nZombieProcesses =
        (AcquireNewHandlesToExistingZombies env.discoveryEnv nAgeInSeconds
          zombieHandlesInit).state.m_nZombieProcesses ∧
      st.m_nTotalProcesses =
        (AcquireNewHandlesToExistingZombies env.discoveryEnv nAgeInSeconds
          zombieHandlesInit).state.m_nTotalProcesses) := by
  simp only [ZombieOwnersUpdate_Impl] at h
  by_cases hok : (AcquireNewHandlesToExistingZombies env.discoveryEnv nAgeInSeconds
      zombieHandlesInit).ok = false
  · rw [if_pos hok] at h
    have h1 := congrArg Prod.fst h
    simp only at h1
    rw [← h1]
    simp [hok]
  · rw [if_neg hok] at h
    cases hsnap : env.snapshot with
    | none =>
      rw [hsnap] at h
      have h1 := congrArg Prod.fst h
      simp only at h1
      rw [← h1]
      simp [hok]
    | some handles =>
      rw [hsnap] at h
      exact absurd (congrArg Prod.snd h) (by simp)

/-- Witness for C4's amended claim: the concrete run whose snapshot fails
after discovery found one zombie. -/
theorem updateImpl_failure_state_witness :
    (ZombieOwnersUpdate_Impl { wOwnersEnv with snapshot := none } 3
        zombieOwnersInit).1.m_owners = [] ∧
    (ZombieOwnersUpdate_Impl { wOwnersEnv with snapshot := none } 3
        zombieOwnersInit).1.m_unexplained = [] ∧
    (ZombieOwnersUpdate_Impl { wOwnersEnv with snapshot := none } 3
        zombieOwnersInit).1.m_ownersSorted = zombieOwnersInit.m_ownersSorted ∧
    ((AcquireNewHandlesToExistingZombies
        ({ wOwnersEnv with snapshot := none } : OwnersEnv).discoveryEnv 3
        zombieHandlesInit).ok = false →
      (ZombieOwnersUpdate_Impl { wOwnersEnv with snapshot := none } 3
        zombieOwnersInit).1.m_nZombieProcessesAndThreads = 0 ∧
      (ZombieOwnersUpdate_Impl { wOwnersEnv with snapshot := none } 3
        zombieOwnersInit).1.m_nZombieProcesses = 0 ∧
      (ZombieOwnersUpdate_Impl { wOwnersEnv with snapshot := none } 3
        zombieOwnersInit).1.m_nTotalProcesses = 0) ∧
    ((AcquireNewHandlesToExistingZombies
        ({ wOwnersEnv with snapshot := none } : OwnersEnv).discoveryEnv 3
        zombieHandlesInit).ok = true →
      (ZombieOwnersUpdate_Impl { wOwnersEnv with snapshot := none } 3
        zombieOwnersInit).1.m_nZombieProcessesAndThreads =
        (AcquireNewHandlesToExistingZombies
          ({ wOwnersEnv with snapshot := none } : OwnersEnv).discoveryEnv 3
          zombieHandlesInit).state.m_ZombieHandleLookup.length ∧
      (ZombieOwnersUpdate_Impl { wOwnersEnv with snapshot := none } 3
        zombieOwnersInit).1.m_nZombieProcesses =
        (AcquireNewHandlesToExistingZombies
          ({ wOwnersEnv with snapshot := none } : OwnersEnv).discoveryEnv 3
          zombieHandlesInit).state.m_nZombieProcesses ∧
      (ZombieOwnersUpdate_Impl { wOwnersEnv with snapshot := none } 3
        zombieOwnersInit).1.m_nTotalProcesses =
        (AcquireNewHandlesToExistingZombies
          ({ wOwnersEnv with snapshot := none } : OwnersEnv).discoveryEnv 3
          zombieHandlesInit).state.m_nTotalProcesses) :=
  updateImpl_failure_state { wOwnersEnv with snapshot := none } 3 zombieOwnersInit
    (ZombieOwnersUpdate_Impl { wOwnersEnv with snapshot := none } 3 zombieOwnersInit).1 rfl

/-- One attribution adds exactly the new (holder, pair) to the pairs held
in the owners collection. -/
theorem pairMem_attributeToOwner (env : OwnersEnv)
    (owners : List (Nat × ZombieOwner)) (pid₀ hv : Nat) (z : ZombieProcessThreadInfo)
    (pid : Nat) (oi : ZombieOwningInfo) :
    pairMem (attributeToOwner env owners pid₀ hv z) pid oi = true ↔
      (pairMem owners pid oi = true ∨
        (pid = pid₀ ∧ oi = { handleValue := hv, zombieInfo := z })) := by
  induction owners with
  | nil =>
    simp only [attributeToOwner, pairMem, List.any_cons, List.any_nil,
      Bool.or_false, Bool.and_eq_true, beq_iff_eq, List.elem_iff,
      List.mem_singleton, decide_eq_true_eq]
    constructor
    · rintro ⟨h1, h2⟩; exact Or.inr ⟨h1.symm, h2⟩
    · rintro (h | ⟨h1, h2⟩)
      · simp [pairMem] at h
      · exact ⟨h1.symm, h2⟩
  | cons kv rest ih =>
    obtain ⟨k, o⟩ := kv
    by_cases hk : k = pid₀
    · simp only [attributeToOwner, hk, if_pos, pairMem, List.any_cons,
        Bool.or_eq_true, Bool.and_eq_true, beq_iff_eq, List.elem_iff,
        List.mem_append, List.mem_singleton, decide_eq_true_eq]
      subst hk
      constructor
      · rintro (⟨h1, h2 | h2⟩ | h)
        · exact Or.inl (Or.inl ⟨h1, h2⟩)
        · exact Or.inr ⟨h1.symm, h2⟩
        · exact Or.inl (Or.inr h)
      · rintro ((⟨h1, h2⟩ | h) | ⟨h1, h2⟩)
        · exact Or.inl ⟨h1, Or.inl h2⟩
        · exact Or.inr h
        · exact Or.inl ⟨h1.symm, Or.inr h2⟩
    · simp only [attributeToOwner, hk, if_neg, not_false_iff, pairMem,
        List.any_cons, Bool.or_eq_true] at ih ⊢
      constructor
      · rintro (h | h)
        · exact Or.inl (Or.inl h)
        · rcases ih.mp h with h' | h'
          · exact Or.inl (Or.inr h')
          · exact Or.inr h'
      · rintro ((h | h) | h)
        · exact Or.inl h
        · exact Or.inr (ih.mpr (Or.inl h))
        · exact Or.inr (ih.mpr (Or.inr h))

/-- Pass 2 over an empty snapshot changes nothing. -/
theorem pass2_nil (env : OwnersEnv) (zh addrLookup : List (Nat × ZombieProcessThreadInfo))
    (acc : Pass2Acc) : pass2 env zh addrLookup [] acc = acc := rfl

/-- Pass 2 over a non-empty snapshot processes the head then the rest. -/
theorem pass2_cons (env : OwnersEnv) (zh addrLookup : List (Nat × ZombieProcessThreadInfo))
    (e : SYSTEM_HANDLE_TABLE_ENTRY_INFO_EX) (rest : List SYSTEM_HANDLE_TABLE_ENTRY_INFO_EX)
    (acc : Pass2Acc) :
    pass2 env zh addrLookup (e :: rest) acc =
      pass2 env zh addrLookup rest (pass2Step env zh addrLookup acc e) := rfl

/-- A non-zombie entry contributes no attribution. -/
theorem pass2Pairs_cons_none (env : OwnersEnv)
    (zh addrLookup : List (Nat × ZombieProcessThreadInfo))
    (e : SYSTEM_HANDLE_TABLE_ENTRY_INFO_EX) (rest : List SYSTEM_HANDLE_TABLE_ENTRY_INFO_EX)
    (hz : alFind addrLookup e.Object = none) :
    pass2Pairs env zh addrLookup (e :: rest) = pass2Pairs env zh addrLookup rest := by
  simp [pass2Pairs, List.filterMap_cons, hz]

/-- A Discovery-owned handle of the current process contributes no
attribution. -/
theorem pass2Pairs_cons_skip (env : OwnersEnv)
    (zh addrLookup : List (Nat × ZombieProcessThreadInfo))
    (e : SYSTEM_HANDLE_TABLE_ENTRY_INFO_EX) (rest : List SYSTEM_HANDLE_TABLE_ENTRY_INFO_EX)
    (z : ZombieProcessThreadInfo) (hz : alFind addrLookup e.Object = some z)
    (hg : ¬(e.UniqueProcessId ≠ env.currPID ∨ alFind zh e.HandleValue = none)) :
    pass2Pairs env zh addrLookup (e :: rest) = pass2Pairs env zh addrLookup rest := by
  simp only [pass2Pairs, List.filterMap_cons, hz, if_neg hg]

/-- An attributed entry contributes its (holder, pair) attribution. -/
theorem pass2Pairs_cons_attr (env : OwnersEnv)
    (zh addrLookup : List (Nat × ZombieProcessThreadInfo))
    (e : SYSTEM_HANDLE_TABLE_ENTRY_INFO_EX) (rest : List SYSTEM_HANDLE_TABLE_ENTRY_INFO_EX)
    (z : ZombieProcessThreadInfo) (hz : alFind addrLookup e.Object = some z)
    (hg : e.UniqueProcessId ≠ env.currPID ∨ alFind zh e.HandleValue = none) :
    pass2Pairs env zh addrLookup (e :: rest) =
      (e.UniqueProcessId, { handleValue := e.HandleValue, zombieInfo := z }) ::
        pass2Pairs env zh addrLookup rest := by
  simp only [pass2Pairs, List.filterMap_cons, hz, if_pos hg]

/-- The pairs held in the owners collection after pass 2 are the pairs of
the starting collection plus exactly the attributions of the processed
entries. -/
theorem pass2_owners_mem (env : OwnersEnv)
    (zh addrLookup : List (Nat × ZombieProcessThreadInfo)) :
    ∀ (handles : List SYSTEM_HANDLE_TABLE_ENTRY_INFO_EX) (acc : Pass2Acc)
      (pid : Nat) (oi : ZombieOwningInfo),
      pairMem (pass2 env zh addrLookup handles acc).owners pid oi = true ↔
        (pairMem acc.owners pid oi = true ∨
          (pid, oi) ∈ pass2Pairs env zh addrLookup handles) := by
  intro handles
  induction handles with
  | nil =>
    intro acc pid oi
    simp [pass2_nil, pass2Pairs]
  | cons e rest ih =>
    intro acc pid oi
    rw [pass2_cons]
    cases hz : alFind addrLookup e.Object with
    | none =>
      have hstep : pass2Step env zh addrLookup acc e = acc := by
        simp [pass2Step, hz]
      rw [hstep, pass2Pairs_cons_none env zh addrLookup e rest hz]
      exact ih acc pid oi
    | some z =>
      by_cases hg : e.UniqueProcessId ≠ env.currPID ∨ alFind zh e.HandleValue = none
      · have hstep : pass2Step env zh addrLookup acc e =
            { owners := attributeToOwner env acc.owners e.UniqueProcessId e.HandleValue z
              zombiePidLookup := alErase acc.zombiePidLookup z.PID } := by
          simp [pass2Step, hz, hg]
        rw [hstep, pass2Pairs_cons_attr env zh addrLookup e rest z hz hg]
        rw [ih]
        simp only [pairMem_attributeToOwner, List.mem_cons, Prod.mk.injEq]
        constructor
        · rintro ((h | ⟨h1, h2⟩) | h)
          · exact Or.inl h
          · exact Or.inr (Or.inl ⟨h1, h2⟩)
          · exact Or.inr (Or.inr h)
        · rintro (h | (⟨h1, h2⟩ | h))
          · exact Or.inl (Or.inl h)
          · exact Or.inl (Or.inr ⟨h1, h2⟩)
          · exact Or.inr h
      · have hstep : pass2Step env zh addrLookup acc e = acc := by
          simp only [pass2Step, hz, if_neg hg]
        rw [hstep, pass2Pairs_cons_skip env zh addrLookup e rest z hz hg]
        exact ih acc pid oi

/-- After pass 2, a PID is still in the pending lookup exactly when no
processed entry attributed a zombie with that PID (and it was pending
before). -/
theorem pass2_pidLookup_find (env : OwnersEnv)
    (zh addrLookup : List (Nat × ZombieProcessThreadInfo)) :
    ∀ (handles : List SYSTEM_HANDLE_TABLE_ENTRY_INFO_EX) (acc : Pass2Acc) (p : Nat),
      alFind (pass2 env zh addrLookup handles acc).zombiePidLookup p =
        if (pass2Pairs env zh addrLookup handles).any
            (fun pr => pr.2.zombieInfo.PID == p) = true
        then none else alFind acc.zombiePidLookup p := by
  intro handles
  induction handles with
  | nil =>
    intro acc p
    simp [pass2_nil, pass2Pairs]
  | cons e rest ih =>
    intro acc p
    rw [pass2_cons]
    cases hz : alFind addrLookup e.Object with
    | none =>
      have hstep : pass2Step env zh addrLookup acc e = acc := by
        simp [pass2Step, hz]
      rw [hstep, pass2Pairs_cons_none env zh addrLookup e rest hz]
      exact ih acc p
    | some z =>
      by_cases hg : e.UniqueProcessId ≠ env.currPID ∨ alFind zh e.HandleValue = none
      · have hstep : pass2Step env zh addrLookup acc e =
            { owners := attributeToOwner env acc.owners e.UniqueProcessId e.HandleValue z
              zombiePidLookup := alErase acc.zombiePidLookup z.PID } := by
          simp [pass2Step, hz, hg]
        rw [hstep, pass2Pairs_cons_attr env zh addrLookup e rest z hz hg, ih]
        by_cases hp : z.PID = p
        · subst hp
          simp only [List.any_cons, beq_self_eq_true, Bool.true_or, if_pos]
          by_cases hrest : (pass2Pairs env zh addrLookup rest).any
              (fun pr => pr.2.zombieInfo.PID == z.PID) = true
          · simp [hrest]
          · simp only [hrest, if_neg, Bool.not_eq_true, if_false]
            simp [alFind_erase_self]
        · have hne : (z.PID == p) = false := by simp [hp]
          simp only [List.any_cons, hne, Bool.false_or]
          by_cases hrest : (pass2Pairs env zh addrLookup rest).any
              (fun pr => pr.2.zombieInfo.PID == p) = true
          · simp [hrest]
          · simp only [hrest, if_false]
            exact alFind_erase_ne _ _ _ (fun hh => hp hh.symm)
      · have hstep : pass2Step env zh addrLookup acc e = acc := by
          simp only [pass2Step, hz, if_neg hg]
        rw [hstep, pass2Pairs_cons_skip env zh addrLookup e rest z hz hg]
        exact ih acc p

/-- Pass 2 only erases from the pending lookup: its final entries come from
the start. -/
theorem pass2_pidLookup_subset (env : OwnersEnv)
    (zh addrLookup : List (Nat × ZombieProcessThreadInfo)) :
    ∀ (handles : List SYSTEM_HANDLE_TABLE_ENTRY_INFO_EX) (acc : Pass2Acc)
      (kv : Nat × ZombieProcessThreadInfo),
      kv ∈ (pass2 env zh addrLookup handles acc).zombiePidLookup →
        kv ∈ acc.zombiePidLookup := by
  intro handles
  induction handles with
  | nil => intro acc kv h; simpa [pass2_nil] using h
  | cons e rest ih =>
    intro acc kv h
    rw [pass2_cons] at h
    have h' := ih _ kv h
    cases hz : alFind addrLookup e.Object with
    | none =>
      have hstep : pass2Step env zh addrLookup acc e = acc := by
        simp [pass2Step, hz]
      rwa [hstep] at h'
    | some z =>
      by_cases hg : e.UniqueProcessId ≠ env.currPID ∨ alFind zh e.HandleValue = none
      · have hstep : pass2Step env zh addrLookup acc e =
            { owners := attributeToOwner env acc.owners e.UniqueProcessId e.HandleValue z
              zombiePidLookup := alErase acc.zombiePidLookup z.PID } := by
          simp [pass2Step, hz, hg]
        rw [hstep] at h'
        exact mem_alErase _ _ _ h'
      · have hstep : pass2Step env zh addrLookup acc e = acc := by
          simp only [pass2Step, hz, if_neg hg]
        rwa [hstep] at h'

/-- Every attribution of pass 2 comes from a snapshot entry whose object
address resolved in the address lookup and which passed the self-handle
exclusion. -/
theorem mem_pass2Pairs (env : OwnersEnv)
    (zh addrLookup : List (Nat × ZombieProcessThreadInfo))
    (handles : List SYSTEM_HANDLE_TABLE_ENTRY_INFO_EX)
    (pid : Nat) (oi : ZombieOwningInfo)
    (h : (pid, oi) ∈ pass2Pairs env zh addrLookup handles) :
    ∃ e ∈ handles, alFind addrLookup e.Object = some oi.zombieInfo ∧
      e.UniqueProcessId = pid ∧ e.HandleValue = oi.handleValue ∧
      (pid ≠ env.currPID ∨ alFind zh oi.handleValue = none) := by
  induction handles with
  | nil => simp [pass2Pairs] at h
  | cons e rest ih =>
    cases hz : alFind addrLookup e.Object with
    | none =>
      rw [pass2Pairs_cons_none env zh addrLookup e rest hz] at h
      obtain ⟨e', he', hrest⟩ := ih h
      exact ⟨e', List.mem_cons_of_mem e he', hrest⟩
    | some z =>
      by_cases hg : e.UniqueProcessId ≠ env.currPID ∨ alFind zh e.HandleValue = none
      · rw [pass2Pairs_cons_attr env zh addrLookup e rest z hz hg] at h
        rcases List.mem_cons.mp h with hh | hh
        · have h1 : pid = e.UniqueProcessId := congrArg Prod.fst hh
          have h2 : oi = { handleValue := e.HandleValue, zombieInfo := z } :=
            congrArg Prod.snd hh
          subst h1
          subst h2
          exact ⟨e, List.mem_cons_self e rest, hz, rfl, rfl, hg⟩
        · obtain ⟨e', he', hrest⟩ := ih hh
          exact ⟨e', List.mem_cons_of_mem e he', hrest⟩
      · rw [pass2Pairs_cons_skip env zh addrLookup e rest z hz hg] at h
        obtain ⟨e', he', hrest⟩ := ih h
        exact ⟨e', List.mem_cons_of_mem e he', hrest⟩

/-- Conversely, every snapshot entry that resolves to a zombie object and
passes the self-handle exclusion appears among pass 2's attributions. -/
theorem pass2Pairs_intro (env : OwnersEnv)
    (zh addrLookup : List (Nat × ZombieProcessThreadInfo))
    (handles : List SYSTEM_HANDLE_TABLE_ENTRY_INFO_EX)
    (e : SYSTEM_HANDLE_TABLE_ENTRY_INFO_EX) (z : ZombieProcessThreadInfo)
    (he : e ∈ handles) (hz : alFind addrLookup e.Object = some z)
    (hg : e.UniqueProcessId ≠ env.currPID ∨ alFind zh e.HandleValue = none) :
    (e.UniqueProcessId, { handleValue := e.HandleValue, zombieInfo := z }) ∈
      pass2Pairs env zh addrLookup handles := by
  induction handles with
  | nil => simp at he
  | cons e' rest ih =>
    rcases List.mem_cons.mp he with rfl | he'
    · rw [pass2Pairs_cons_attr env zh addrLookup e rest z hz hg]
      exact List.mem_cons_self _ _
    · cases hz' : alFind addrLookup e'.Object with
      | none =>
        rw [pass2Pairs_cons_none env zh addrLookup e' rest hz']
        exact ih he'
      | some z' =>
        by_cases hg' : e'.UniqueProcessId ≠ env.currPID ∨ alFind zh e'.HandleValue = none
        · rw [pass2Pairs_cons_attr env zh addrLookup e' rest z' hz' hg']
          exact List.mem_cons_of_mem _ (ih he')
        · rw [pass2Pairs_cons_skip env zh addrLookup e' rest z' hz' hg']
          exact ih he'

/-- A value property that holds of everything in a map is kept by the
insertions of a fold, provided it holds of each inserted value. -/
theorem alFind_foldl_insert_prop {α β : Type} (g : α → Nat) (f : α → β)
    (P : β → Prop) :
    ∀ (ts : List α) (m : List (Nat × β)),
      (∀ k v, alFind m k = some v → P v) → (∀ t ∈ ts, P (f t)) →
      ∀ k v, alFind (ts.foldl (fun acc t => alInsert acc (g t) (f t)) m) k = some v →
        P v := by
  intro ts
  induction ts with
  | nil => intro m hm _ k v hv; exact hm k v hv
  | cons t ts ih =>
    intro m hm hts k v hv
    rw [List.foldl_cons] at hv
    refine ih (alInsert m (g t) (f t)) ?_
      (fun u hu => hts u (List.mem_cons_of_mem _ hu)) k v hv
    intro k' v' hv'
    rcases alFind_insert_cases _ _ _ _ _ hv' with h | h
    · exact h ▸ hts t (List.mem_cons_self _ _)
    · exact hm k' v' h

/-- A value property of the zombie-handle lookup is kept by pass 1: every
value of the address lookup is a value of the handle lookup. -/
theorem buildAddrLookup_values (currPID : Nat)
    (zh : List (Nat × ZombieProcessThreadInfo))
    (handles : List SYSTEM_HANDLE_TABLE_ENTRY_INFO_EX)
    (P : ZombieProcessThreadInfo → Prop)
    (hzh : ∀ hv z, alFind zh hv = some z → P z) :
    ∀ a z, alFind (buildAddrLookup currPID zh handles) a = some z → P z := by
  suffices hgen : ∀ (hs : List SYSTEM_HANDLE_TABLE_ENTRY_INFO_EX)
      (m : List (Nat × ZombieProcessThreadInfo)),
      (∀ a z, alFind m a = some z → P z) →
      ∀ a z, alFind (hs.foldl
        (fun m e =>
          if e.UniqueProcessId = currPID then
            match alFind zh e.HandleValue with
            | some z => alInsert m e.Object z
            | none => m
          else m) m) a = some z → P z by
    intro a z h
    exact hgen handles [] (by intro a' z' h'; simp [alFind] at h') a z h
  intro hs
  induction hs with
  | nil => intro m hm a z h; exact hm a z h
  | cons e rest ih =>
    intro m hm a z h
    rw [List.foldl_cons] at h
    refine ih _ ?_ a z h
    intro a' z' h'
    by_cases hpid : e.UniqueProcessId = currPID
    · rw [if_pos hpid] at h'
      cases hfind : alFind zh e.HandleValue with
      | none => rw [hfind] at h'; exact hm a' z' h'
      | some zf =>
        rw [hfind] at h'
        rcases alFind_insert_cases _ _ _ _ _ h' with hc | hc
        · exact hc ▸ hzh _ zf hfind
        · exact hm a' z' hc
    · rw [if_neg hpid] at h'
      exact hm a' z' h'

/-- Along the enumeration fold, every zombie record in the handle-keyed
lookup has its PID present in the PID-keyed lookup. -/
theorem acquireFold_zh_pid (now nAgeInSeconds : Nat) :
    ∀ (ps : List ProcessEnum) (acc : AcquireAcc),
      (∀ hv z, alFind acc.m_ZombieHandleLookup hv = some z →
        (alFind acc.zombiePidLookup z.PID).isSome) →
      ∀ hv z,
        alFind (ps.foldl (acquireStep now nAgeInSeconds) acc).m_ZombieHandleLookup hv
          = some z →
        (alFind (ps.foldl (acquireStep now nAgeInSeconds) acc).zombiePidLookup
          z.PID).isSome := by
  intro ps
  induction ps with
  | nil => intro acc hacc; simpa using hacc
  | cons pe rest ih =>
    intro acc hacc
    rw [List.foldl_cons]
    apply ih
    rcases acquireStep_shape now nAgeInSeconds acc pe with
      ⟨hzh, hpl⟩ | ⟨_, _, zi, ts, _, _, hzh, hpl⟩
    · rw [hzh, hpl]; exact hacc
    · rw [hzh, hpl]
      intro hv z hfind
      rcases alFind_insert_cases _ _ _ _ _ hfind with hc | hc
      · subst hc
        rw [alFind_insert_self]
        rfl
      · refine alFind_foldl_insert_prop (fun t => t.hThread)
          (fun t => { zi with TID := t.tid, nThreads := 0 })
          (fun v => (alFind (alInsert acc.zombiePidLookup zi.PID zi) v.PID).isSome)
          ts acc.m_ZombieHandleLookup ?_ ?_ hv z hc
        · intro k v hval
          exact alFind_isSome_insert _ _ _ _ (hacc k v hval)
        · intro t _
          show (alFind (alInsert acc.zombiePidLookup zi.PID zi) zi.PID).isSome
          rw [alFind_insert_self]
          rfl

/-- Discovery invariant: every zombie record retained in the handle-keyed
lookup has its PID among the discovered zombie PIDs. -/
theorem acquire_zh_pid (env : DiscoveryEnv) (nAgeInSeconds : Nat)
    (st : ZombieHandlesState) :
    ∀ hv z,
      alFind (AcquireNewHandlesToExistingZombies env nAgeInSeconds
        st).state.m_ZombieHandleLookup hv = some z →
      (alFind (AcquireNewHandlesToExistingZombies env nAgeInSeconds
        st).zombiePidLookup z.PID).isSome := by
  intro hv z h
  unfold AcquireNewHandlesToExistingZombies at h ⊢
  by_cases hm : env.ntdllModuleOk = false
  · rw [if_pos hm] at h
    simp only [ReleaseAcquiredHandles] at h
    simp [alFind] at h
  · rw [if_neg hm] at h ⊢
    by_cases hf : env.ntdllFunctionsOk = false
    · rw [if_pos hf] at h
      simp only [ReleaseAcquiredHandles] at h
      simp [alFind] at h
    · rw [if_neg hf] at h ⊢
      refine acquireFold_zh_pid env.now nAgeInSeconds env.processes _ ?_ hv z h
      intro hv' z' h'
      simp only [ReleaseAcquiredHandles] at h'
      simp [alFind] at h'

/-- Discovery invariant: every entry of the PID-keyed lookup is keyed by
its record's PID. -/
theorem acquire_pid_key (env : DiscoveryEnv) (nAgeInSeconds : Nat)
    (st : ZombieHandlesState) :
    ∀ kv ∈ (AcquireNewHandlesToExistingZombies env nAgeInSeconds st).zombiePidLookup,
      kv.2.PID = kv.1 := by
  intro kv hkv
  unfold AcquireNewHandlesToExistingZombies at hkv
  by_cases hm : env.ntdllModuleOk = false
  · rw [if_pos hm] at hkv
    simp at hkv
  · rw [if_neg hm] at hkv
    by_cases hf : env.ntdllFunctionsOk = false
    · rw [if_pos hf] at hkv
      simp at hkv
    · rw [if_neg hf] at hkv
      exact acquireFold_pid_entries env.now nAgeInSeconds (fun kv => kv.2.PID = kv.1)
        (fun zi _ _ => rfl) env.processes _ (by intro kv' hkv'; simp at hkv') kv hkv

/-- A PID is attributed exactly when some owner holds a pair whose zombie
record carries it. -/
theorem pidAttributed_iff_pairMem (owners : List (Nat × ZombieOwner)) (p : Nat) :
    pidAttributed owners p = true ↔
      ∃ pid oi, pairMem owners pid oi = true ∧ oi.zombieInfo.PID = p := by
  simp only [pidAttributed, pairMem, List.any_eq_true, Bool.and_eq_true, beq_iff_eq,
    List.elem_iff]
  constructor
  · rintro ⟨kv, hkv, oi, hoi, hp⟩
    exact ⟨kv.1, oi, ⟨kv, hkv, rfl, hoi⟩, hp⟩
  · rintro ⟨pid, oi, ⟨kv, hkv, hfst, hoi⟩, hp⟩
    exact ⟨kv, hkv, oi, hoi, hp⟩

/-- Claim C1: after every successful `Update` run, a PID is among the
discovered zombie PIDs exactly when it is attributed in the owners
collection or present in the unexplained list, and it is never in both —
the results partition the discovered zombies. -/
theorem zombie_pid_partition (env : OwnersEnv) (nAgeInSeconds : Nat)
    (st₀ st : ZombieOwnersState)
    (h : ZombieOwnersUpdate_Impl env nAgeInSeconds st₀ = (st, true)) (p : Nat) :
    ((alFind (discoveredZombies env nAgeInSeconds) p).isSome ↔
      (pidAttributed st.m_owners p = true ∨
        st.m_unexplained.any (fun z => z.PID == p) = true)) ∧
    ¬(pidAttributed st.m_owners p = true ∧
      st.m_unexplained.any (fun z => z.PID == p) = true) := by
  simp only [ZombieOwnersUpdate_Impl] at h
  by_cases hok : (AcquireNewHandlesToExistingZombies env.discoveryEnv nAgeInSeconds
      zombieHandlesInit).ok = false
  · rw [if_pos hok] at h
    exact absurd (congrArg Prod.snd h) (by simp)
  · rw [if_neg hok] at h
    cases hsnap : env.snapshot with
    | none =>
      rw [hsnap] at h
      exact absurd (congrArg Prod.snd h) (by simp)
    | some handles =>
      rw [hsnap] at h
      have h1 := congrArg Prod.fst h
      simp only at h1
      set d := AcquireNewHandlesToExistingZombies env.discoveryEnv nAgeInSeconds
        zombieHandlesInit with hd
      set zh := d.state.m_ZombieHandleLookup with hzh
      set addr := buildAddrLookup env.currPID zh handles with haddr
      set fin := pass2 env zh addr handles
        { owners := [], zombiePidLookup := d.zombiePidLookup } with hfin
      have hOwn : st.m_owners = fin.owners := by rw [← h1]
      have hUnex : st.m_unexplained = fin.zombiePidLookup.map Prod.snd := by rw [← h1]
      have hdisc : discoveredZombies env nAgeInSeconds = d.zombiePidLookup := by
        rw [hd]; rfl
      have hzhpid : ∀ hv z, alFind zh hv = some z →
          (alFind d.zombiePidLookup z.PID).isSome := by
        intro hv z hfz
        exact acquire_zh_pid env.discoveryEnv nAgeInSeconds zombieHandlesInit hv z hfz
      have hkey : ∀ kv ∈ d.zombiePidLookup, kv.2.PID = kv.1 :=
        acquire_pid_key env.discoveryEnv nAgeInSeconds zombieHandlesInit
      have haddrval : ∀ a z, alFind addr a = some z →
          (alFind d.zombiePidLookup z.PID).isSome := by
        rw [haddr]
        exact buildAddrLookup_values env.currPID zh handles _ hzhpid
      have hmem : ∀ pid oi, pairMem fin.owners pid oi = true ↔
          (pid, oi) ∈ pass2Pairs env zh addr handles := by
        intro pid oi
        rw [hfin, pass2_owners_mem]
        simp [pairMem]
      have hplfind : ∀ q, alFind fin.zombiePidLookup q =
          (if (pass2Pairs env zh addr handles).any
              (fun pr => pr.2.zombieInfo.PID == q) = true
           then none else alFind d.zombiePidLookup q) := by
        intro q
        rw [hfin, pass2_pidLookup_find]
      have hattr : pidAttributed fin.owners p = true ↔
          (pass2Pairs env zh addr handles).any
            (fun pr => pr.2.zombieInfo.PID == p) = true := by
        rw [pidAttributed_iff_pairMem]
        simp only [List.any_eq_true, beq_iff_eq]
        constructor
        · rintro ⟨pid, oi, hpm, hp⟩
          exact ⟨(pid, oi), (hmem pid oi).mp hpm, hp⟩
        · rintro ⟨⟨pid, oi⟩, hpr, hp⟩
          exact ⟨pid, oi, (hmem pid oi).mpr hpr, hp⟩
      have hAdisc : (pass2Pairs env zh addr handles).any
            (fun pr => pr.2.zombieInfo.PID == p) = true →
          (alFind d.zombiePidLookup p).isSome := by
        intro hA
        simp only [List.any_eq_true, beq_iff_eq] at hA
        obtain ⟨⟨pid, oi⟩, hpr, hp⟩ := hA
        obtain ⟨e, _, hfz, _, _, _⟩ := mem_pass2Pairs env zh addr handles pid oi hpr
        have := haddrval e.Object oi.zombieInfo hfz
        rwa [hp] at this
      have hunex : (st.m_unexplained.any (fun z => z.PID == p) = true) ↔
          (¬ ((pass2Pairs env zh addr handles).any
              (fun pr => pr.2.zombieInfo.PID == p) = true) ∧
            (alFind d.zombiePidLookup p).isSome) := by
        rw [hUnex]
        constructor
        · intro hany
          obtain ⟨z0, hz0, hp0⟩ := List.any_eq_true.mp hany
          obtain ⟨kv, hkv, hkv2⟩ := List.mem_map.mp hz0
          have hp : kv.2.PID = p := by
            rw [← hkv2] at hp0
            exact beq_iff_eq.mp hp0
          have hsub : kv ∈ d.zombiePidLookup :=
            pass2_pidLookup_subset env zh addr handles
              { owners := [], zombiePidLookup := d.zombiePidLookup } kv (hfin ▸ hkv)
          have hk : kv.1 = p := by rw [← hkey kv hsub, hp]
          have hins : (alFind fin.zombiePidLookup p).isSome := by
            have := mem_alFind_isSome _ kv hkv
            rwa [hk] at this
          rw [hplfind p] at hins
          by_cases hA : (pass2Pairs env zh addr handles).any
              (fun pr => pr.2.zombieInfo.PID == p) = true
          · rw [if_pos hA] at hins
            simp at hins
          · rw [if_neg hA] at hins
            exact ⟨hA, hins⟩
        · rintro ⟨hA, hsome⟩
          have hfins : (alFind fin.zombiePidLookup p).isSome := by
            rw [hplfind p, if_neg hA]
            exact hsome
          obtain ⟨z, hz⟩ := Option.isSome_iff_exists.mp hfins
          have hmemfin : (p, z) ∈ fin.zombiePidLookup := alFind_mem _ _ _ hz
          have hsub : (p, z) ∈ d.zombiePidLookup :=
            pass2_pidLookup_subset env zh addr handles
              { owners := [], zombiePidLookup := d.zombiePidLookup } (p, z)
              (hfin ▸ hmemfin)
          refine List.any_eq_true.mpr ⟨z, List.mem_map.mpr ⟨(p, z), hmemfin, rfl⟩, ?_⟩
          have hzp : z.PID = p := hkey (p, z) hsub
          exact beq_iff_eq.mpr hzp
      rw [hdisc, hOwn, hattr, hunex]
      constructor
      · constructor
        · intro hdiscP
          by_cases hA : (pass2Pairs env zh addr handles).any
              (fun pr => pr.2.zombieInfo.PID == p) = true
          · exact Or.inl hA
          · exact Or.inr ⟨hA, hdiscP⟩
        · rintro (hA | ⟨_, hdiscP⟩)
          · exact hAdisc hA
          · exact hdiscP
      · rintro ⟨hA, hnA, _⟩
        exact hnA hA

/-- Witness for C1: the partition evaluated at the discovered PID 10 of the
concrete run (attributed to process 42, absent from the unexplained
list). -/
theorem zombie_pid_partition_witness :
    ((alFind (discoveredZombies wOwnersEnv 3) 10).isSome ↔
      (pidAttributed (ZombieOwnersUpdate_Impl wOwnersEnv 3 zombieOwnersInit).1.m_owners
          10 = true ∨
        (ZombieOwnersUpdate_Impl wOwnersEnv 3 zombieOwnersInit).1.m_unexplained.any
          (fun z => z.PID == 10) = true)) ∧
    ¬(pidAttributed (ZombieOwnersUpdate_Impl wOwnersEnv 3 zombieOwnersInit).1.m_owners
        10 = true ∧
      (ZombieOwnersUpdate_Impl wOwnersEnv 3 zombieOwnersInit).1.m_unexplained.any
        (fun z => z.PID == 10) = true) :=
  zombie_pid_partition wOwnersEnv 3 zombieOwnersInit
    (ZombieOwnersUpdate_Impl wOwnersEnv 3 zombieOwnersInit).1 rfl 10

/-- Claim C2: in pass 2 of a successful run, a snapshot entry whose object
address matches a discovered zombie object is attributed to its owning
process, unless it belongs to the discovery process and its handle value is
in Discovery's handle-keyed lookup — such a self-handle is never
attributed to any owner record, while a handle of the discovery process
whose value is not in the lookup is attributed. -/
theorem self_handle_exclusion (env : OwnersEnv) (nAgeInSeconds : Nat)
    (st₀ st : ZombieOwnersState)
    (h : ZombieOwnersUpdate_Impl env nAgeInSeconds st₀ = (st, true)) :
    (∀ e ∈ snapshotEntries env, ∀ z,
      alFind (zombieAddrLookup env nAgeInSeconds) e.Object = some z →
      (e.UniqueProcessId ≠ env.currPID ∨
        alFind (discoveryHandleLookup env nAgeInSeconds) e.HandleValue = none) →
      pairMem st.m_owners e.UniqueProcessId
        { handleValue := e.HandleValue, zombieInfo := z } = true) ∧
    (∀ hv, (alFind (discoveryHandleLookup env nAgeInSeconds) hv).isSome →
      ∀ oi, pairMem st.m_owners env.currPID oi = true → oi.handleValue ≠ hv) := by
  simp only [ZombieOwnersUpdate_Impl] at h
  by_cases hok : (AcquireNewHandlesToExistingZombies env.discoveryEnv nAgeInSeconds
      zombieHandlesInit).ok = false
  · rw [if_pos hok] at h
    exact absurd (congrArg Prod.snd h) (by simp)
  · rw [if_neg hok] at h
    cases hsnap : env.snapshot with
    | none =>
      rw [hsnap] at h
      exact absurd (congrArg Prod.snd h) (by simp)
    | some handles =>
      rw [hsnap] at h
      have h1 := congrArg Prod.fst h
      simp only at h1
      have hsnapE : snapshotEntries env = handles := by
        simp [snapshotEntries, hsnap]
      have haddrEq : zombieAddrLookup env nAgeInSeconds =
          buildAddrLookup env.currPID (discoveryHandleLookup env nAgeInSeconds) handles := by
        simp [zombieAddrLookup, hsnap]
      have hfact : ∀ pid oi, pairMem st.m_owners pid oi = true ↔
          (pid, oi) ∈ pass2Pairs env (discoveryHandleLookup env nAgeInSeconds)
            (buildAddrLookup env.currPID (discoveryHandleLookup env nAgeInSeconds) handles)
            handles := by
        intro pid oi
        have hOwn : st.m_owners =
            (pass2 env (discoveryHandleLookup env nAgeInSeconds)
              (buildAddrLookup env.currPID (discoveryHandleLookup env nAgeInSeconds)
                handles)
              handles
              { owners := []
                zombiePidLookup := (AcquireNewHandlesToExistingZombies env.discoveryEnv
                  nAgeInSeconds zombieHandlesInit).zombiePidLookup }).owners := by
          rw [← h1]
          rfl
        rw [hOwn, pass2_owners_mem]
        simp [pairMem]
      constructor
      · intro e he z hz hg
        rw [hsnapE] at he
        rw [haddrEq] at hz
        exact (hfact e.UniqueProcessId { handleValue := e.HandleValue, zombieInfo := z }).mpr
          (pass2Pairs_intro env (discoveryHandleLookup env nAgeInSeconds) _ handles e z
            he hz hg)
      · intro hv hsome oi hpm heq
        obtain ⟨e, _, _, _, _, hguard⟩ :=
          mem_pass2Pairs env (discoveryHandleLookup env nAgeInSeconds) _ handles
            env.currPID oi ((hfact env.currPID oi).mp hpm)
        rcases hguard with hne | hnone
        · exact hne rfl
        · rw [heq] at hnone
          rw [hnone] at hsome
          simp at hsome

/-- Witness for C2: in the concrete run, process 42's independently opened
handle 7 to the zombie object is attributed to process 42. -/
theorem self_handle_exclusion_witness :
    pairMem (ZombieOwnersUpdate_Impl wOwnersEnv 3 zombieOwnersInit).1.m_owners 42
      { handleValue := 7, zombieInfo := wZombieInfo } = true :=
  (self_handle_exclusion wOwnersEnv 3 zombieOwnersInit
      (ZombieOwnersUpdate_Impl wOwnersEnv 3 zombieOwnersInit).1 rfl).1
    { Object := 500, UniqueProcessId := 42, HandleValue := 7, GrantedAccess := 0,
      CreatorBackTraceIndex := 0, ObjectTypeIndex := 7, HandleAttributes := 0 }
    (by decide) wZombieInfo (by decide) (by decide)

end ZombieFinder
